import Mathlib

/-!
Verification development for the tax dependency-tree rendering scripts.

The Python sources are embedded shallowly:

* `scripts/calculation-tree/tax_form_calc_tree.py` — `PurelyGenericTreeBuilder`
* `scripts/calculation-tree/taxpayer_calc_tree.py` — `GenericTaxpayerTreeBuilder`
* `scripts/calculation-tree/query_dependency_tree.py` — `build_generic_year_tree`
* `scripts/calculation-tree/visualize_calculation_tree.py` — `CalculationNode`
* `scripts/query_examples.py` — `TaxSystemQuerier`

Mappings loaded from the database become association lists, the open
transaction becomes an oracle structure (`Tx`) holding the result rows each
mid-walk query would return, Python floats become exact rationals, and the
recursive tree walks take an explicit fuel argument (`none` = fuel exhausted);
termination is then an explicit theorem rather than a by-construction fact.
-/

namespace TaxTree

/-! ### String helpers (Python primitives used by the scripts) -/

/-- One scanning step bound by fuel; embeds Python `str.replace` (replace all
non-overlapping occurrences, left to right). Fuel `= length of the list`
always suffices since every step consumes at least one character. -/
def replaceAllAux (pat rep : List Char) : Nat → List Char → List Char
  | _, [] => []
  | 0, l => l
  | n + 1, c :: cs =>
    if pat ≠ [] ∧ pat.isPrefixOf (c :: cs) then
      rep ++ replaceAllAux pat rep n (List.drop pat.length (c :: cs))
    else
      c :: replaceAllAux pat rep n cs

/-- Python `s.replace(pat, rep)`. -/
def replaceAll (s pat rep : String) : String :=
  String.mk (replaceAllAux pat.data rep.data s.data.length s.data)

/-- Insert a comma after every three digits, working over a reversed digit
list; `k` counts digits emitted since the last comma. -/
def commaRev : List Char → Nat → List Char
  | [], _ => []
  | c :: cs, k =>
    if k = 3 then ',' :: c :: commaRev cs 1
    else c :: commaRev cs (k + 1)

/-- Group a decimal digit string with thousands separators. -/
def groupDigits (s : String) : String :=
  String.mk ((commaRev s.data.reverse 0).reverse)

/-- Round to the nearest integer, halves up (computed on numerator and
denominator so the kernel can evaluate it). Python `:,.0f` / `:,.2f` round
exact halves to even instead, so this models the program exactly only on
tie-free values (denominator distinct from 2 after reduction for `:,.0f`);
the checked display wrappers below confine the rendering theorems to that
envelope. -/
def roundRat (q : Rat) : Int :=
  Int.fdiv (2 * q.num + (q.den : Int)) (2 * (q.den : Int))

/-- Round `q * 100` to the nearest integer, likewise kernel-evaluable. -/
def roundRat100 (q : Rat) : Int :=
  Int.fdiv (2 * (100 * q.num) + (q.den : Int)) (2 * (q.den : Int))

/-- Python `f"{x:,.0f}"` on an exact rational: round to an integer and group
thousands. -/
def fmtComma0 (q : Rat) : String :=
  let n : Int := roundRat q
  (if n < 0 then "-" else "") ++ groupDigits (toString n.natAbs)

/-- Python `f"{x:,.2f}"`: two decimal places with thousands grouping. -/
def fmtComma2 (q : Rat) : String :=
  let n : Int := roundRat100 q
  let a : Nat := n.natAbs
  let frac : Nat := a % 100
  let fracStr := (if frac < 10 then "0" else "") ++ toString frac
  (if n < 0 then "-" else "") ++ groupDigits (toString (a / 100)) ++ "." ++ fracStr

/-- Python `f"{rate*100:.0f}"` (bracket rates shown as integer percents). -/
def fmtPct (rate : Rat) : String :=
  toString (roundRat100 rate)

/-- Python `str(x)` on a float: exact for integral values below `10^16`
(where CPython prints the full digits and a trailing `.0`). Outside that
envelope — non-integral doubles, or magnitudes where `str` switches to
exponent notation — this prints the rational instead; `pyFloatStrOk` below
recognises the exact envelope and the checked display wrappers restrict the
rendering theorems to it. -/
def pyFloatStr (q : Rat) : String :=
  if q.den = 1 then toString q.num ++ ".0" else toString q

/-- The envelope on which `pyFloatStr` agrees with CPython `str(float)`:
integral values of magnitude below `10^16`. -/
def pyFloatStrOk (q : Rat) : Bool :=
  q.den == 1 && q.num.natAbs < 10000000000000000

/-- Python `s.upper()` (ASCII). -/
def upperStr (s : String) : String :=
  String.mk (s.data.map Char.toUpper)

/-- Python `s[:-n]` (drop the last `n` characters). -/
def dropRightStr (s : String) (n : Nat) : String :=
  String.mk (s.data.take (s.data.length - n))

/-- Substitute `\x7bkey\x7d` placeholders, one key after another. This equals
Python `str.format(**item)` exactly on the plain replacement fragment —
patterns whose braces occur only as the listed whole fields, with brace-free
earlier-key values (`formatFragmentOk` below recognises the fragment). Outside
it Python renders format specs, treats doubled braces as escapes, or raises
KeyError on unknown fields; the checked display wrappers return `none` there
instead of fabricating output. -/
def substAll (pat : String) : List (String × String) → String
  | [] => pat
  | (k, v) :: rest => substAll (replaceAll pat ("\x7b" ++ k ++ "\x7d") v) rest

/-- No brace character occurs in the string. -/
def bracesFree (s : String) : Bool :=
  s.data.all (fun c => !(c == '\x7b') && !(c == '\x7d'))

/-- Fuel-bounded scan for `formatFragmentOk`: every opening brace must start
one of the exact fields `\x7bk\x7d` for `k` in `keys`, and no stray closing
brace occurs. Fuel `= length of the list` suffices since every step consumes
at least one character. -/
def formatFragmentOkAux (keys : List String) : Nat → List Char → Bool
  | _, [] => true
  | 0, _ => false
  | n + 1, c :: cs =>
    if c = '\x7d' then false
    else if c = '\x7b' then
      match keys.find? (fun k => (k.data ++ ['\x7d']).isPrefixOf cs) with
      | some k => formatFragmentOkAux keys n (cs.drop (k.length + 1))
      | none => false
    else formatFragmentOkAux keys n cs

/-- The plain replacement fragment of Python `str.format`: braces occur only
as the exact listed fields — no format specs, no doubled braces, no unknown
fields. On this fragment whole-field substitution renders exactly what
`format` renders. -/
def formatFragmentOk (pat : String) (keys : List String) : Bool :=
  formatFragmentOkAux keys pat.data.length pat.data

/-- Split a string at newline characters (auxiliary, accumulator reversed). -/
def splitNlAux : List Char → List Char → List (List Char)
  | [], acc => [acc.reverse]
  | c :: cs, acc =>
    if c = '\n' then acc.reverse :: splitNlAux cs []
    else splitNlAux cs (c :: acc)

/-- The lines of a rendered tree (final newline yields a trailing empty line,
as Python `str.split` would produce). -/
def linesOf (s : String) : List String :=
  (splitNlAux s.data []).map String.mk

/-! ### Data model: mappings loaded by `load_metadata` -/

/-- One entry of `self.fields`: `{'name': …, 'function': …, 'dependencies': […]}`. -/
structure Field where
  name : String
  func : String
  dependencies : List String
deriving DecidableEq, Repr

/-- One entry of `self.function_specs`:
`{'type': …, 'display_pattern': … or None, 'query_pattern': … or None}`. -/
structure FuncSpec where
  type : String
  display_pattern : Option String
  query_pattern : Option String
deriving DecidableEq, Repr

/-- The state a `PurelyGenericTreeBuilder` holds after `load_metadata`:
the three mappings plus the chosen tax year. -/
structure Builder where
  year : Int
  fields : List (String × Field)
  function_specs : List (String × FuncSpec)
  function_deps : List (String × List String)
deriving DecidableEq, Repr

/-- A row returned by the tax-bracket metadata query of
`display_tax_brackets` (sorted by the database: type asc, min asc). -/
structure BracketRow where
  stype : String
  display : String
  min : Rat
  max : Rat
  rate : Rat
  base : Rat
deriving DecidableEq, Repr

/-- Taxpayer context loaded by `load_taxpayer_context` (empty dict ↦ `none`). -/
structure TpContext where
  status_type : String
  status_display : String
deriving DecidableEq, Repr

/-- The extra state of a `GenericTaxpayerTreeBuilder`. -/
structure TaxpayerState where
  ssn : String
  context : Option TpContext
  values : List (String × Rat)
deriving DecidableEq, Repr

/-- The open read transaction, abstracted as the rows each query text would
return. Every `tx.query(...)` issued while a tree is being rendered reads one
of these components. -/
structure Tx where
  /-- rows of the `income_type` name query (`get_aggregated_items`). -/
  incomeTypeNames : List String
  /-- `year ↦` rows `(display, amount)` of the standard-deduction query
  (`get_lookup_results`). -/
  stdDeductionRows : Int → List (String × Rat)
  /-- `year ↦` rows of the tax-bracket query (`display_tax_brackets`). -/
  taxBracketRows : Int → List BracketRow
  /-- `(id, name)` rows of `get_all_income_types`. -/
  incomeTypes : List (String × String)
  /-- `year ↦` assoc `status_type ↦ (display, amount)` built by
  `get_all_standard_deductions`. -/
  stdDeductionsByStatus : Int → List (String × String × Rat)
  /-- `year ↦` display names of `get_itemized_deductions` rows. -/
  itemizedDisplays : Int → List String
  /-- per-display `deduction_limit` row of the nested `limit_query`. -/
  deductionLimit : String → Option Rat
  /-- `year ↦` assoc `status_type ↦ brackets (min, max, rate, base)` built
  by `get_all_tax_brackets`. -/
  taxBracketsByStatus : Int → List (String × List (Rat × Rat × Rat × Rat))
  /-- per-status `filing_status_display` row (`get_filing_status_display`). -/
  filingStatusDisplay : String → Option String
  /-- `ssn ↦` rows `(name, amount)` of the taxpayer income query
  (`get_taxpayer_aggregated_items`). -/
  taxpayerIncome : String → List (String × Rat)
  /-- `(year, status_type) ↦` first row `(display, amount)` of the
  taxpayer standard-deduction query (`get_taxpayer_lookup_results`). -/
  stdDeductionFor : Int → String → Option (String × Rat)
  /-- `(year, status_type) ↦` bracket rows sorted by min asc
  (`display_taxpayer_tax_bracket`). -/
  bracketsFor : Int → String → List (Rat × Rat × Rat × Rat)

/-- Python `func_spec.get('type')` where `func_spec` may be the `{}` default. -/
def specType : Option FuncSpec → Option String
  | some s => some s.type
  | none => none

/-- Python `func_spec.get('query_pattern')`. -/
def specQueryPattern : Option FuncSpec → Option String
  | some s => s.query_pattern
  | none => none

/-- Python `func_spec.get('display_pattern', default)` under the reading
that a stored `None` pattern counts as absent. `load_metadata` in fact always
stores the key and Python then returns the stored `None`, on which
`display_items` / `display_lookup_results` raise `AttributeError` at
`None.format`; the checked display wrappers below make that failure explicit
as `none`, and the rendering theorems only speak where they succeed. -/
def specDisplayPattern (spec : Option FuncSpec) (dflt : String) : String :=
  match spec with
  | some s => s.display_pattern.getD dflt
  | none => dflt

/-! ### `PurelyGenericTreeBuilder` helper methods -/

/-- `get_aggregated_items`: the `income_type` query issued mid-walk; items are
dicts `{'name': …}`. -/
def get_aggregated_items (tx : Tx) (spec : Option FuncSpec) : List String :=
  if specQueryPattern spec = some "income_type" then tx.incomeTypeNames else []

/-- `get_lookup_results`: the year-parameterised `standard_deduction_rule`
query issued mid-walk; rows are `{'status': display, 'amount': …}`. -/
def get_lookup_results (tx : Tx) (year : Int) (spec : Option FuncSpec) :
    List (String × Rat) :=
  if specQueryPattern spec = some "standard_deduction_rule" then
    tx.stdDeductionRows year
  else []

/-- Sibling loop of `display_items` (a vertical bar between consecutive
items, none after the last). -/
def displayItemsLoop (indent pat : String) : List String → String
  | [] => ""
  | item :: rest =>
    let connector := if rest.isEmpty then "└──" else "├──"
    indent ++ connector ++ " " ++ substAll pat [("name", item)] ++ "\n" ++
      (if rest.isEmpty then "" else indent ++ "│\n") ++
      displayItemsLoop indent pat rest

/-- `display_items`. -/
def display_items (items : List String) (indent : String)
    (spec : Option FuncSpec) : String :=
  indent ++ "│\n" ++ displayItemsLoop indent (specDisplayPattern spec "\x7bname\x7d") items

/-- Sibling loop of `display_lookup_results` (no separators). -/
def displayLookupLoop (indent pat : String) : List (String × Rat) → String
  | [] => ""
  | (status, amount) :: rest =>
    let connector := if rest.isEmpty then "└──" else "├──"
    indent ++ connector ++ " " ++
      substAll pat [("status", status), ("amount", pyFloatStr amount)] ++ "\n" ++
      displayLookupLoop indent pat rest

/-- `display_lookup_results`. -/
def display_lookup_results (results : List (String × Rat)) (indent : String)
    (spec : Option FuncSpec) : String :=
  indent ++ "│\n" ++
    displayLookupLoop indent (specDisplayPattern spec "\x7bstatus\x7d: $\x7bamount\x7d") results

/-- Range text shared by every bracket renderer
(`$min+` for the open-ended top bracket). -/
def bracketRangeStr (mn mx : Rat) : String :=
  if mx ≥ 999999999 then "$" ++ fmtComma0 mn ++ "+"
  else "$" ++ fmtComma0 mn ++ " - $" ++ fmtComma0 mx

/-- One step of the `brackets_by_status` dict-building loop of
`display_tax_brackets`: first occurrence of a status opens a new
insertion-ordered entry (keeping that row's display), later rows append. -/
def addBracketRow (acc : List (String × String × List BracketRow)) (r : BracketRow) :
    List (String × String × List BracketRow) :=
  if (acc.lookup r.stype).isSome then
    acc.map (fun e => if e.1 = r.stype then (e.1, e.2.1, e.2.2 ++ [r]) else e)
  else
    acc ++ [(r.stype, r.display, [r])]

/-- The insertion-ordered grouping `brackets_by_status` built by
`display_tax_brackets`. -/
def groupBrackets (rows : List BracketRow) : List (String × String × List BracketRow) :=
  rows.foldl addBracketRow []

/-- Bracket lines of one filing status inside `display_tax_brackets`. -/
def bracketLinesLoop (indent statusIndent : String) : List BracketRow → String
  | [] => ""
  | b :: rest =>
    let connector := if rest.isEmpty then "└──" else "├──"
    indent ++ "        " ++ statusIndent ++ connector ++ " " ++
      bracketRangeStr b.min b.max ++ " → $" ++ fmtComma0 b.base ++ ", " ++
      fmtPct b.rate ++ "%\n" ++
      bracketLinesLoop indent statusIndent rest

/-- Status loop inside `display_tax_brackets`. -/
def bracketStatusLoop (indent : String) : List (String × String × List BracketRow) → String
  | [] => ""
  | (_, display, brs) :: rest =>
    let isLastStatus := rest.isEmpty
    let statusConnector := if isLastStatus then "└──" else "├──"
    let statusIndent := if isLastStatus then "    " else "│   "
    indent ++ "        " ++ statusConnector ++ " [FOR " ++ upperStr display ++ "]\n" ++
      bracketLinesLoop indent statusIndent brs ++
      (if isLastStatus then "" else indent ++ "        │\n") ++
      bracketStatusLoop indent rest

/-- `display_tax_brackets`: header lines, the year-parameterised bracket query,
grouping by status, then the per-status rendering. -/
def display_tax_brackets (tx : Tx) (year : Int) (indent : String) : String :=
  indent ++ "│\n" ++
  indent ++ "└── Tax Rate Lookup\n" ++
  indent ++ "    └── get_tax_bracket()\n" ++
  indent ++ "        │\n" ++
  bracketStatusLoop indent (groupBrackets (tx.taxBracketRows year))

/-- `get_additional_function_content`: tax brackets are an additional lookup
for functions whose spec has `query_pattern = 'tax_bracket_rule'`. -/
def get_additional_function_content (B : Builder) (tx : Tx)
    (function_name indent : String) : Option String :=
  if specQueryPattern (B.function_specs.lookup function_name) = some "tax_bracket_rule" then
    some (display_tax_brackets tx B.year indent)
  else none

/-! ### `PurelyGenericTreeBuilder.build_tree` -/

/-- The `for i, dep_id in enumerate(deps)` loop shared by both builders:
`is_last_dep = (i == len(deps) - 1) and not has_additional`, sibling calls
thread the visited set, outputs concatenate in list order. -/
def buildDeps (f : String → Bool → List String → Option (String × List String)) :
    List String → Bool → List String → Option (String × List String)
  | [], _, visited => some ("", visited)
  | d :: ds, hasAdditional, visited =>
    let isLastDep := ds.isEmpty && !hasAdditional
    match f d isLastDep visited with
    | none => none
    | some (s, v1) =>
      match buildDeps f ds hasAdditional v1 with
      | none => none
      | some (s2, v2) => some (s ++ s2, v2)

/-- The node lines of `build_tree` (root layout when `indent` is empty),
shared with the taxpayer variant which appends `value_str` to the node line. -/
def nodeHeaderStr (field : Field) (field_id indent : String) (isLast : Bool)
    (valueStr : String) : String :=
  let idTag := replaceAll field_id "1040-" ""
  if indent = "" then
    field.name ++ " [" ++ idTag ++ "]" ++ valueStr ++ "\n" ++
      "└── " ++ field.func ++ "()\n"
  else
    let connector := if isLast then "└──" else "├──"
    let funcIndent := indent ++ (if isLast then "    " else "│   ")
    indent ++ connector ++ " " ++ field.name ++ " [" ++ idTag ++ "]" ++ valueStr ++ "\n" ++
      funcIndent ++ "└── " ++ field.func ++ "()\n"

/-- The `next_indent` both builders compute alongside the node lines. -/
def nextIndentOf (indent : String) (isLast : Bool) : String :=
  if indent = "" then "    "
  else indent ++ (if isLast then "    " else "│   ") ++ "    "

/-- `PurelyGenericTreeBuilder.build_tree`, fuel-indexed (`none` = fuel ran
out; the fuel only bounds recursion depth). -/
def buildTreeAux (B : Builder) (tx : Tx) :
    Nat → String → String → Bool → List String → Option (String × List String)
  | 0, _, _, _, _ => none
  | fuel + 1, field_id, indent, isLast, visited =>
    if field_id ∈ visited then
      some (indent ++ "└── (circular reference)\n", visited)
    else
      let visited := field_id :: visited
      match B.fields.lookup field_id with
      | none => some ("", visited)
      | some field =>
        let node := nodeHeaderStr field field_id indent isLast ""
        let nextIndent := nextIndentOf indent isLast
        let funcSpec := B.function_specs.lookup field.func
        if specType funcSpec = some "aggregation" ∧ get_aggregated_items tx funcSpec ≠ [] then
          some (node ++ display_items (get_aggregated_items tx funcSpec) nextIndent funcSpec,
            visited)
        else
          let lookupPart :=
            if specType funcSpec = some "lookup" ∧ get_lookup_results tx B.year funcSpec ≠ [] then
              display_lookup_results (get_lookup_results tx B.year funcSpec) nextIndent funcSpec
            else ""
          let additional := get_additional_function_content B tx field.func nextIndent
          let deps := field.dependencies
          let depsSep := if deps.isEmpty then "" else nextIndent ++ "│\n"
          match buildDeps (fun d l v => buildTreeAux B tx fuel d nextIndent l v)
              deps additional.isSome visited with
          | none => none
          | some (depsStr, visited2) =>
            some (node ++ lookupPart ++ depsSep ++ depsStr ++ additional.getD "", visited2)

/-- Top-level `builder.build_tree(field_id)` with the default arguments and
enough fuel for any input. -/
def buildTree (B : Builder) (tx : Tx) (field_id : String) : String :=
  ((buildTreeAux B tx (B.fields.length + 1) field_id "" true []).getD ("", [])).1

/-! ### `GenericTaxpayerTreeBuilder` (taxpayer_calc_tree.py) -/

/-- `get_taxpayer_aggregated_items`: the taxpayer income query (interpolating
the SSN) issued mid-walk; rows are `{'name': …, 'amount': …}`. -/
def get_taxpayer_aggregated_items (tx : Tx) (ssn : String) (spec : Option FuncSpec) :
    List (String × Rat) :=
  if specQueryPattern spec = some "income_type" then tx.taxpayerIncome ssn else []

/-- `get_taxpayer_lookup_results`: first row of the year/status standard
deduction query, as a singleton list (the `'applied': True` flag the dict also
carries is never read and is dropped here). -/
def get_taxpayer_lookup_results (tx : Tx) (year : Int) (T : TaxpayerState)
    (spec : Option FuncSpec) : List (String × Rat) :=
  if specQueryPattern spec = some "standard_deduction_rule" ∧ T.context.isSome then
    match T.context with
    | some ctx =>
      match tx.stdDeductionFor year ctx.status_type with
      | some (display, amount) => [(display, amount)]
      | none => []
    | none => []
  else []

/-- Sibling loop of `display_taxpayer_items`; the vertical-bar separator is
skipped between the final two siblings (`i < len(items) - 2`). The display
pattern is always the default `\x7bname\x7d = $\x7bamount:,.0f\x7d` because the
metadata loader never stores a `taxpayer_display_pattern` key. -/
def displayTaxpayerItemsLoop (indent : String) : List (String × Rat) → String
  | [] => ""
  | (name, amount) :: rest =>
    let connector := if rest.isEmpty then "└──" else "├──"
    indent ++ connector ++ " " ++ name ++ " = $" ++ fmtComma0 amount ++ "\n" ++
      (if !rest.isEmpty then (if rest.length ≥ 2 then indent ++ "│\n" else "") else "") ++
      displayTaxpayerItemsLoop indent rest

/-- `display_taxpayer_items`. -/
def display_taxpayer_items (items : List (String × Rat)) (indent : String) : String :=
  indent ++ "│\n" ++ displayTaxpayerItemsLoop indent items

/-- `display_taxpayer_lookup_results` (no leading separator line; the amount is
always numeric, so the formatted branch is always taken). -/
def display_taxpayer_lookup_results (results : List (String × Rat)) (indent : String) :
    String :=
  results.foldl
    (fun tree r => tree ++ indent ++ "└── " ++ r.1 ++ " Filer → $" ++ fmtComma0 r.2 ++ "\n") ""

/-- `display_taxpayer_tax_bracket`: `None` when no line-15 value was loaded;
otherwise header lines, the year/status bracket query, and the first bracket
containing the taxable amount (header only if none matches). -/
def display_taxpayer_tax_bracket (tx : Tx) (year : Int) (T : TaxpayerState)
    (indent : String) : Option String :=
  match T.values.lookup "1040-line-15", T.context with
  | some taxable, some ctx =>
    let header := indent ++ "│\n" ++ indent ++ "└── Tax Rate Lookup\n"
    let rows := tx.bracketsFor year ctx.status_type
    match rows.find? (fun r => decide (r.1 ≤ taxable ∧ taxable ≤ r.2.1)) with
    | some (mn, mx, rate, base) =>
      some (header ++
        indent ++ "    └── get_tax_bracket() → $" ++ fmtComma0 base ++ ", " ++
          fmtPct rate ++ "%\n" ++
        indent ++ "        │\n" ++
        indent ++ "        └── " ++ ctx.status_display ++ " Filer Tax Brackets\n" ++
        indent ++ "            └── " ++ bracketRangeStr mn mx ++ " → $" ++
          fmtComma0 base ++ ", " ++ fmtPct rate ++ "% ← APPLIED\n")
    | none => some header
  | none, _ => none
  | some _, none => none

/-- `get_taxpayer_additional_content` (requires a loaded taxpayer context). -/
def get_taxpayer_additional_content (B : Builder) (tx : Tx) (T : TaxpayerState)
    (function_name indent : String) : Option String :=
  if specQueryPattern (B.function_specs.lookup function_name) = some "tax_bracket_rule" ∧
      T.context.isSome then
    display_taxpayer_tax_bracket tx B.year T indent
  else none

/-- The `value_str` suffix: present exactly when the field has a loaded
taxpayer value (the loaded values are floats, so the numeric format is
always taken). -/
def valueStrOf (T : TaxpayerState) (field_id : String) : String :=
  match T.values.lookup field_id with
  | some v => " = $" ++ fmtComma0 v
  | none => ""

/-- `GenericTaxpayerTreeBuilder.build_tree`, fuel-indexed. -/
def taxpayerBuildTreeAux (B : Builder) (tx : Tx) (T : TaxpayerState) :
    Nat → String → String → Bool → List String → Option (String × List String)
  | 0, _, _, _, _ => none
  | fuel + 1, field_id, indent, isLast, visited =>
    if field_id ∈ visited then
      some (indent ++ "└── (circular reference)\n", visited)
    else
      let visited := field_id :: visited
      match B.fields.lookup field_id with
      | none => some ("", visited)
      | some field =>
        let node := nodeHeaderStr field field_id indent isLast (valueStrOf T field_id)
        let nextIndent := nextIndentOf indent isLast
        let funcSpec := B.function_specs.lookup field.func
        if specType funcSpec = some "aggregation" ∧
            get_taxpayer_aggregated_items tx T.ssn funcSpec ≠ [] then
          some (node ++
            display_taxpayer_items (get_taxpayer_aggregated_items tx T.ssn funcSpec) nextIndent,
            visited)
        else
          let lookupPart :=
            if specType funcSpec = some "lookup" ∧
                get_taxpayer_lookup_results tx B.year T funcSpec ≠ [] then
              display_taxpayer_lookup_results
                (get_taxpayer_lookup_results tx B.year T funcSpec) nextIndent
            else ""
          let additional := get_taxpayer_additional_content B tx T field.func nextIndent
          let deps := field.dependencies
          let depsSep := if deps.isEmpty then "" else nextIndent ++ "│\n"
          match buildDeps (fun d l v => taxpayerBuildTreeAux B tx T fuel d nextIndent l v)
              deps additional.isSome visited with
          | none => none
          | some (depsStr, visited2) =>
            some (node ++ lookupPart ++ depsSep ++ depsStr ++ additional.getD "", visited2)

/-- Top-level taxpayer `build_tree` with default arguments. -/
def taxpayerBuildTree (B : Builder) (tx : Tx) (T : TaxpayerState) (field_id : String) :
    String :=
  ((taxpayerBuildTreeAux B tx T (B.fields.length + 1) field_id "" true []).getD ("", [])).1

/-! ### `build_generic_year_tree` (query_dependency_tree.py) -/

/-- One entry of the mapping built by `get_field_dependencies(tx)` in
query_dependency_tree.py (the `dependents` list is filled but never read by
the tree builders). -/
structure YearField where
  name : String
  func : String
  dependencies : List String
  dependents : List String
deriving DecidableEq, Repr

/-- `get_all_income_types`. -/
def get_all_income_types (tx : Tx) : List (String × String) :=
  tx.incomeTypes

/-- `get_all_standard_deductions` (insertion-ordered dict as an assoc list). -/
def get_all_standard_deductions (tx : Tx) (year : Int) : List (String × String × Rat) :=
  tx.stdDeductionsByStatus year

/-- `get_itemized_deductions`: per row, a nested `limit_query` fetches the
optional limit; a missing or zero limit (both falsy in Python) and the
999999999 sentinel suppress the `(max $…)` suffix. -/
def get_itemized_deductions (tx : Tx) (year : Int) : List String :=
  (tx.itemizedDisplays year).map (fun display =>
    match tx.deductionLimit display with
    | some lim =>
      if lim ≠ 0 ∧ lim < 999999999 then
        display ++ " (max $" ++ fmtComma0 lim ++ ")"
      else display
    | none => display)

/-- `get_all_tax_brackets` (defaultdict grouped by status, as an assoc list of
already-sorted rows). -/
def get_all_tax_brackets (tx : Tx) (year : Int) :
    List (String × List (Rat × Rat × Rat × Rat)) :=
  tx.taxBracketsByStatus year

/-- `get_filing_status_display`. -/
def get_filing_status_display (tx : Tx) (status_type : String) : String :=
  match tx.filingStatusDisplay status_type with
  | some display =>
    if status_type = "single" then upperStr display ++ " FILERS" else upperStr display
  | none => upperStr status_type

/-- The hard-coded `all_types` list shown by the generic year view. -/
def possibleIncomeTypes : List String :=
  ["W-2 Wages", "1099 Income", "Capital Gains", "Business Income"]

/-- The `[POSSIBLE]` income-type loop (separator skipped between the final
two siblings, `i < len(all_types) - 2`). -/
def yearIncomeLoop (indent : String) : List String → String
  | [] => ""
  | n :: rest =>
    let connector := if rest.isEmpty then "└──" else "├──"
    indent ++ connector ++ " [POSSIBLE] " ++ n ++ "\n" ++
      (if !rest.isEmpty then (if rest.length ≥ 2 then indent ++ "│\n" else "") else "") ++
      yearIncomeLoop indent rest

/-- The filing-status display order used by the year view. -/
def statusOrder : List String :=
  ["single", "married_filing_jointly", "head_of_household"]

/-- `sorted_deductions = [(s, standard_deductions[s]) for s in status_order
if s in standard_deductions]`. -/
def sortedDeductionsOf (d : List (String × String × Rat)) : List (String × String × Rat) :=
  statusOrder.filterMap (fun s => (d.lookup s).map (fun p => (s, p)))

/-- Standard-deduction option lines of the year view. -/
def stdDeductionLoop (nextIndent : String) : List (String × String × Rat) → String
  | [] => ""
  | (_, display, amount) :: rest =>
    let connector := if rest.isEmpty then "└──" else "├──"
    nextIndent ++ "│   " ++ connector ++ " " ++ display ++ ": $" ++ fmtComma0 amount ++ "\n" ++
      stdDeductionLoop nextIndent rest

/-- Itemized-deduction option lines of the year view. -/
def itemizedLoop (nextIndent : String) : List String → String
  | [] => ""
  | d :: rest =>
    let connector := if rest.isEmpty then "└──" else "├──"
    nextIndent ++ "    " ++ connector ++ " " ++ d ++ "\n" ++
      itemizedLoop nextIndent rest

/-- The `1040-line-12` deductions block of the year view. -/
def deductionsBlock (tx : Tx) (year : Int) (nextIndent : String) : String :=
  nextIndent ++ "│\n" ++
  nextIndent ++ "├── [OPTION A] Standard Deduction\n" ++
  stdDeductionLoop nextIndent (sortedDeductionsOf (get_all_standard_deductions tx year)) ++
  nextIndent ++ "│\n" ++
  nextIndent ++ "└── [OPTION B] Itemized Deductions\n" ++
  itemizedLoop nextIndent (get_itemized_deductions tx year)

/-- Bracket lines of one status in the year view. -/
def yearBracketLoop (base statusIndent : String) : List (Rat × Rat × Rat × Rat) → String
  | [] => ""
  | (mn, mx, rate, baseTax) :: rest =>
    let connector := if rest.isEmpty then "└──" else "├──"
    base ++ "            " ++ statusIndent ++ connector ++ " " ++ bracketRangeStr mn mx ++
      " → $" ++ fmtComma0 baseTax ++ ", " ++ fmtPct rate ++ "%\n" ++
      yearBracketLoop base statusIndent rest

/-- Status loop of the year-view tax-rate lookup (one more display query per
status). -/
def yearStatusLoop (tx : Tx) (base : String)
    (allBrackets : List (String × List (Rat × Rat × Rat × Rat))) : List String → String
  | [] => ""
  | s :: rest =>
    let brackets := (allBrackets.lookup s).getD []
    let isLastStatus := rest.isEmpty
    let statusConnector := if isLastStatus then "└──" else "├──"
    let statusIndent := if isLastStatus then "    " else "│   "
    base ++ "            " ++ statusConnector ++ " [FOR " ++
      get_filing_status_display tx s ++ "]\n" ++
    yearBracketLoop base statusIndent brackets ++
    (if isLastStatus then "" else base ++ "            │\n") ++
    yearStatusLoop tx base allBrackets rest

/-- The `calculate_federal_tax` tax-rate lookup block of the year view. -/
def taxLookupBlock (tx : Tx) (year : Int) (base : String) : String :=
  let allBrackets := get_all_tax_brackets tx year
  let available := statusOrder.filter (fun s => (allBrackets.lookup s).isSome)
  base ++ "    │\n" ++
  base ++ "    └── Tax Rate Lookup\n" ++
  base ++ "        └── get_tax_rate()\n" ++
  base ++ "            │\n" ++
  yearStatusLoop tx base allBrackets available

/-- The dependency loop of `build_generic_year_tree`: a separator line before
every child (the guard `i < len(deps)` is always true), and
`is_last_child = (i == len(deps) - 1) and not has_tax_lookup`. -/
def yearDeps (f : String → Bool → List String → Option (String × List String))
    (sepLine : String) (hasTax : Bool) :
    List String → List String → Option (String × List String)
  | [], visited => some ("", visited)
  | d :: ds, visited =>
    let isLastChild := ds.isEmpty && !hasTax
    match f d isLastChild visited with
    | none => none
    | some (s, v1) =>
      match yearDeps f sepLine hasTax ds v1 with
      | none => none
      | some (s2, v2) => some (sepLine ++ s ++ s2, v2)

/-- The node lines of `build_generic_year_tree`: the root is always titled
`Federal Income Tax`, and the `1040-line-12` field is retitled `Deductions`
with function `calculate_deductions`. -/
def yearNodeStr (field : YearField) (root_id indent : String) (isLast : Bool) : String :=
  let idTag := replaceAll root_id "1040-" ""
  if indent = "" then
    "Federal Income Tax [" ++ idTag ++ "]\n" ++ "└── " ++ field.func ++ "()\n"
  else
    let connector := if isLast then "└──" else "├──"
    let fieldName := if root_id = "1040-line-12" then "Deductions" else field.name
    let funcName := if root_id = "1040-line-12" then "calculate_deductions" else field.func
    let nodeLine := indent ++ connector ++ " " ++ fieldName ++ " [" ++ idTag ++ "]\n"
    if isLast then
      nodeLine ++ indent ++ "    └── " ++ funcName ++ "()\n"
    else
      nodeLine ++ indent ++ "│   └── " ++ funcName ++ "()\n"

/-- The `next_indent` of `build_generic_year_tree`. -/
def yearNextIndent (indent : String) (isLast : Bool) : String :=
  if indent = "" then "    "
  else if isLast then indent ++ "        "
  else indent ++ "│       "

/-- `build_generic_year_tree`, fuel-indexed. -/
def yearTreeAux (F : List (String × YearField)) (tx : Tx) (year : Int) :
    Nat → String → String → Bool → List String → Option (String × List String)
  | 0, _, _, _, _ => none
  | fuel + 1, root_id, indent, isLast, visited =>
    if root_id ∈ visited then
      some (indent ++ "└── (circular reference)\n", visited)
    else
      let visited := root_id :: visited
      match F.lookup root_id with
      | none => some ("", visited)
      | some field =>
        let node := yearNodeStr field root_id indent isLast
        let nextIndent := yearNextIndent indent isLast
        if field.func = "calculate_total_income" ∧ get_all_income_types tx ≠ [] then
          some (node ++ nextIndent ++ "│\n" ++ yearIncomeLoop nextIndent possibleIncomeTypes,
            visited)
        else if field.func ≠ "calculate_total_income" ∧ root_id = "1040-line-12" then
          some (node ++ deductionsBlock tx year nextIndent, visited)
        else
          let hasTax := field.func = "calculate_federal_tax"
          let base := dropRightStr nextIndent 4
          match yearDeps (fun d l v => yearTreeAux F tx year fuel d (base ++ "    ") l v)
              (base ++ "    │\n") hasTax field.dependencies visited with
          | none => none
          | some (depsStr, visited2) =>
            some (node ++ depsStr ++ (if hasTax then taxLookupBlock tx year base else ""),
              visited2)

/-- Top-level `build_generic_year_tree(fields, root_id, tx, year)`. -/
def yearTree (F : List (String × YearField)) (tx : Tx) (year : Int) (root_id : String) :
    String :=
  ((yearTreeAux F tx year (F.length + 1) root_id "" true []).getD ("", [])).1

/-! ### Instrumented generic builder (ghost trace of expanded fields)

`buildTreeAuxT` is `buildTreeAux` extended with a ghost list of the field ids
whose node was actually expanded (emitted), in emission order; a projection
lemma connects the two. -/

/-- Dependency loop threading the ghost trace. -/
def buildDepsT
    (f : String → Bool → List String → Option (String × List String × List String)) :
    List String → Bool → List String → Option (String × List String × List String)
  | [], _, visited => some ("", visited, [])
  | d :: ds, hasAdditional, visited =>
    let isLastDep := ds.isEmpty && !hasAdditional
    match f d isLastDep visited with
    | none => none
    | some (s, v1, t1) =>
      match buildDepsT f ds hasAdditional v1 with
      | none => none
      | some (s2, v2, t2) => some (s ++ s2, v2, t1 ++ t2)

/-- `buildTreeAux` with the ghost expansion trace. -/
def buildTreeAuxT (B : Builder) (tx : Tx) :
    Nat → String → String → Bool → List String →
      Option (String × List String × List String)
  | 0, _, _, _, _ => none
  | fuel + 1, field_id, indent, isLast, visited =>
    if field_id ∈ visited then
      some (indent ++ "└── (circular reference)\n", visited, [])
    else
      let visited := field_id :: visited
      match B.fields.lookup field_id with
      | none => some ("", visited, [])
      | some field =>
        let node := nodeHeaderStr field field_id indent isLast ""
        let nextIndent := nextIndentOf indent isLast
        let funcSpec := B.function_specs.lookup field.func
        if specType funcSpec = some "aggregation" ∧ get_aggregated_items tx funcSpec ≠ [] then
          some (node ++ display_items (get_aggregated_items tx funcSpec) nextIndent funcSpec,
            visited, [field_id])
        else
          let lookupPart :=
            if specType funcSpec = some "lookup" ∧ get_lookup_results tx B.year funcSpec ≠ [] then
              display_lookup_results (get_lookup_results tx B.year funcSpec) nextIndent funcSpec
            else ""
          let additional := get_additional_function_content B tx field.func nextIndent
          let deps := field.dependencies
          let depsSep := if deps.isEmpty then "" else nextIndent ++ "│\n"
          match buildDepsT (fun d l v => buildTreeAuxT B tx fuel d nextIndent l v)
              deps additional.isSome visited with
          | none => none
          | some (depsStr, visited2, trace2) =>
            some (node ++ lookupPart ++ depsSep ++ depsStr ++ additional.getD "",
              visited2, field_id :: trace2)

/-! ### `CalculationNode` (visualize_calculation_tree.py) -/

mutual
/-- `CalculationNode`: one calculation step of the audit trail. -/
inductive CNode where
  | mk (step_id : String) (calc_type : String) (value : Rat)
      (formula : Option String) (note : Option String) (children : CForest)
/-- The children list of a `CalculationNode`. -/
inductive CForest where
  | nil
  | cons (head : CNode) (tail : CForest)
end

/-- The one output line a node contributes (without prefix/connector):
`{calc_type}: ${value:,.2f}` plus ` [{formula}]` when the formula is truthy
(Python skips both `None` and the empty string). -/
def nodeLabel (calc_type : String) (value : Rat) (formula : Option String) : String :=
  let base := calc_type ++ ": $" ++ fmtComma2 value
  match formula with
  | some f => if f = "" then base else base ++ " [" ++ f ++ "]"
  | none => base

mutual
/-- `CalculationNode.to_console_tree`. -/
def toConsoleTree : CNode → String → Bool → String
  | .mk _ calc_type value formula _ children, pref, isLast =>
    let connector := if isLast then "└── " else "├── "
    let childPref := pref ++ (if isLast then "    " else "│   ")
    pref ++ connector ++ nodeLabel calc_type value formula ++ "\n" ++
      toConsoleForest children childPref
termination_by structural n => n
/-- The `for i, child in enumerate(self.children)` loop of
`to_console_tree` (`is_last_child = (i == len(self.children) - 1)`). -/
def toConsoleForest : CForest → String → String
  | .nil, _ => ""
  | .cons c rest, pref =>
    toConsoleTree c pref (match rest with | .nil => true | .cons _ _ => false) ++
      toConsoleForest rest pref
termination_by structural f => f
end

mutual
/-- Specification-side line list, written from the claimed invariant: every
node contributes exactly one line, the last child uses the `└── ` connector
and earlier children `├── `, and a child's subtree lines extend the parent
prefix by four blanks after a last sibling and by a bar otherwise. -/
def consoleLines : CNode → String → Bool → List String
  | .mk _ calc_type value formula _ children, pref, isLast =>
    (pref ++ (if isLast then "└── " else "├── ") ++ nodeLabel calc_type value formula) ::
      consoleLinesForest children (pref ++ (if isLast then "    " else "│   "))
termination_by structural n => n
/-- Specification-side line lists of a children list. -/
def consoleLinesForest : CForest → String → List String
  | .nil, _ => []
  | .cons c rest, pref =>
    consoleLines c pref (match rest with | .nil => true | .cons _ _ => false) ++
      consoleLinesForest rest pref
termination_by structural f => f
end

mutual
/-- Number of nodes of a tree. -/
def sizeCNode : CNode → Nat
  | .mk _ _ _ _ _ children => 1 + sizeCForest children
termination_by structural n => n
/-- Number of nodes of a children list. -/
def sizeCForest : CForest → Nat
  | .nil => 0
  | .cons c rest => sizeCNode c + sizeCForest rest
termination_by structural f => f
end

/-- Join a line list back into newline-terminated text. -/
def joinLines : List String → String
  | [] => ""
  | l :: ls => l ++ "\n" ++ joinLines ls

/-! ### Query texts (the strings handed to `tx.query`) -/

/-- The `form_field` metadata query of `load_metadata` — a fixed literal. -/
def fields_query : String :=
  "\n            match\n                $field isa form_field,\n                    has field_id $id,\n                    has field_name $name,\n                    has calculation_function $func;\n            select $id, $name, $func;\n        "

/-- The `field_dependency` metadata query of `load_metadata` — a fixed literal. -/
def deps_query : String :=
  "\n            match\n                $dependency isa field_dependency,\n                    links (dependent_field: $dep, source_field: $src);\n                $dep has field_id $dep_id;\n                $src has field_id $src_id;\n            select $dep_id, $src_id;\n        "

/-- The `income_type` query of `get_aggregated_items` — a fixed literal. -/
def income_type_query : String :=
  "\n                match\n                    $type isa income_type,\n                        has field_name $name;\n                select $name;\n                sort $name asc;\n            "

/-- The standard-deduction query of `get_lookup_results`: the template is
interpolated with `% self.year` before being sent. -/
def get_lookup_results_query (year : Int) : String :=
  "\n                match\n                    $year isa tax_year, has year " ++ toString year ++
  ";\n                    $rule isa standard_deduction_rule,\n                        links (applicable_year: $year, applicable_status: $status, deduction: $ded);\n                    $status has filing_status_display $display;\n                    $ded has deduction_amount $amount;\n                select $display, $amount;\n            "

/-- The taxpayer income query of `get_taxpayer_income`
(query_dependency_tree.py): the template is interpolated with `% ssn`. -/
def get_taxpayer_income_query (ssn : String) : String :=
  "\n        match\n            $taxpayer isa taxpayer, has ssn \"" ++ ssn ++
  "\";\n            $income isa income_source,\n                links (earner: $taxpayer, type: $type),\n                has amount $amt;\n            $type has field_name $name;\n        select $name, $amt;\n    "

/-- The root audit-trail query of `TaxCalculationAuditor.get_calculation_tree`
(visualize_calculation_tree.py): an f-string interpolating the SSN and year. -/
def root_query (taxpayer_ssn : String) (year : Int) : String :=
  "\n                    match\n                        $taxpayer isa taxpayer, has ssn \"" ++
  taxpayer_ssn ++ "\";\n                        $filing isa filing, has year " ++
  toString year ++
  ";\n                        (step: $root, taxpayer: $taxpayer, filing: $filing) isa calculation_context;\n                        $root isa calculation_step,\n                            has calculation_type \"federal-income-tax\",\n                            has calculation_id $root_id,\n                            has output_value $value;\n                    select $root_id, $value;\n                "

/-- The children query of `_build_tree_recursive`: an f-string interpolating
the parent step id. -/
def children_query (step_id : String) : String :=
  "\n            match\n                $parent isa calculation_step, has calculation_id \"" ++
  step_id ++
  "\";\n                (parent_step: $parent, child_step: $child) isa calculation_lineage;\n                $child has calculation_id $child_id,\n                      has calculation_type $child_type,\n                      has output_value $child_value;\n                select $child_id, $child_type, $child_value;\n        "

/-! ### `TaxSystemQuerier.get_field_dependencies` (query_examples.py) -/

/-- The result dictionary the docstring of `get_field_dependencies` promises. -/
structure FieldDeps where
  depends_on : List String
  influences : List String
deriving DecidableEq, Repr

/-- `TaxSystemQuerier.get_field_dependencies(field_id)`: the body is a
docstring followed by `pass`. The embedding pairs the returned value with the
list of query texts the call sends to the database. -/
def get_field_dependencies (field_id : String) : Option FieldDeps × List String :=
  (none, [])

/-! ### Auxiliary notions used by the statements -/

/-- Number of mapping keys not yet visited: the measure that shrinks at every
expansion step of a tree walk. -/
def unvisitedKeys (keys : List String) (v : List String) : Nat :=
  keys.countP (fun k => decide (k ∉ v))

/-- Kernel-evaluable string prefix test. -/
def strIsPrefixOf (p s : String) : Bool :=
  p.data.isPrefixOf s.data

/-- The aggregation display step with Python's failure modes made explicit:
`none` when the loaded spec stores no display pattern (`None.format` raises
`AttributeError`) or when the pattern falls outside the plain `\x7bname\x7d`
fragment (format specs render differently, stray braces are escapes, unknown
fields raise `KeyError`); otherwise exactly the string `display_items`
renders. A missing spec takes the Python default pattern and succeeds. -/
def display_items_checked (items : List String) (indent : String)
    (spec : Option FuncSpec) : Option String :=
  match spec with
  | none => some (display_items items indent none)
  | some s =>
    match s.display_pattern with
    | none => none
    | some p =>
      if formatFragmentOk p ["name"] then some (display_items items indent (some s))
      else none

/-- The lookup display step with Python's failure modes made explicit: `none`
when the stored pattern is `None`, outside the plain `status`/`amount`
fragment, or when a row's rendering falls outside the exact envelope of the
model (a status containing braces, or an amount `str(float)` prints
differently than the rational printer); otherwise exactly the string
`display_lookup_results` renders. -/
def display_lookup_results_checked (results : List (String × Rat)) (indent : String)
    (spec : Option FuncSpec) : Option String :=
  let rowsOk := results.all (fun r => bracesFree r.1 && pyFloatStrOk r.2)
  match spec with
  | none =>
    if rowsOk then some (display_lookup_results results indent none) else none
  | some s =>
    match s.display_pattern with
    | none => none
    | some p =>
      if formatFragmentOk p ["status", "amount"] && rowsOk then
        some (display_lookup_results results indent (some s))
      else none

/-- The taxpayer aggregation display step, checked: the default
`\x7bname\x7d = $\x7bamount:,.0f\x7d` pattern always applies (no crash path),
but the `,.0f` rounding is modelled halves-up while Python rounds ties to
even, so the model is exact only on tie-free amounts. -/
def display_taxpayer_items_checked (items : List (String × Rat)) (indent : String) :
    Option String :=
  if items.all (fun r => !(r.2.den == 2)) then
    some (display_taxpayer_items items indent)
  else none

/-- The `value_str` rendering is exact when the field has no loaded value or
a tie-free one. -/
def valueStrOk (T : TaxpayerState) (field_id : String) : Bool :=
  match T.values.lookup field_id with
  | some q => !(q.den == 2)
  | none => true

/-- The graph of the dependency loop shared by the builders: `DepsChain f deps
hasAdditional v s v2` holds when processing `deps` from visited set `v`
produces exactly the output `s` and final visited set `v2`, with the first
dependency's complete subtree a contiguous prefix factor of `s` and the
remaining dependencies following in list order. -/
inductive DepsChain (f : String → Bool → List String → Option (String × List String)) :
    List String → Bool → List String → String → List String → Prop
  | nil (hasAdditional : Bool) (v : List String) : DepsChain f [] hasAdditional v "" v
  | cons (d : String) (ds : List String) (hasAdditional : Bool) (v : List String)
      (s1 : String) (v1 : List String) (s2 : String) (v2 : List String) :
      f d (ds.isEmpty && !hasAdditional) v = some (s1, v1) →
      DepsChain f ds hasAdditional v1 s2 v2 →
      DepsChain f (d :: ds) hasAdditional v (s1 ++ s2) v2

/-! ### Concrete instances for the witnesses and counterexamples -/

/-- A transaction whose every query returns no rows. -/
def txEmpty : Tx :=
  ⟨[], fun _ => [], fun _ => [], [], fun _ => [], fun _ => [], fun _ => none,
   fun _ => [], fun _ => none, fun _ => [], fun _ _ => none, fun _ _ => []⟩

/-- A transaction returning the given income-type names and nothing else. -/
def incomeTx (names : List String) : Tx :=
  ⟨names, fun _ => [], fun _ => [], [], fun _ => [], fun _ => [], fun _ => none,
   fun _ => [], fun _ => none, fun _ => [], fun _ _ => none, fun _ _ => []⟩

/-- A transaction like `incomeTx ["Interest Income"]` that additionally
answers the standard-deduction query for the year 2023 (a year no builder in
the witnesses uses). -/
def incomeTx2023 : Tx :=
  ⟨["Interest Income"], fun y => if y = 2023 then [("Z", (1 : Rat))] else [],
   fun _ => [], [], fun _ => [], fun _ => [], fun _ => none,
   fun _ => [], fun _ => none, fun _ => [], fun _ _ => none, fun _ _ => []⟩

/-- A builder holding one aggregation field. -/
def aggBuilder : Builder :=
  ⟨2024,
   [("1040-line-9", ⟨"Total Income", "calculate_total_income", []⟩)],
   [("calculate_total_income", ⟨"aggregation", some "\x7bname\x7d", some "income_type"⟩)],
   []⟩

/-- A builder whose aggregation spec stores no display pattern — the state on
which Python's `display_items` raises `AttributeError` at `None.format`. -/
def crashBuilder : Builder :=
  ⟨2024,
   [("1040-line-9", ⟨"Total Income", "calculate_total_income", []⟩)],
   [("calculate_total_income", ⟨"aggregation", none, some "income_type"⟩)],
   []⟩

/-- A builder holding one lookup field with one dependency. -/
def lookupBuilder : Builder :=
  ⟨2024,
   [("L", ⟨"Standard Deduction", "get_standard_deduction", ["d"]⟩),
    ("d", ⟨"Dep", "g", []⟩)],
   [("get_standard_deduction",
     ⟨"lookup", some "\x7bstatus\x7d: $\x7bamount\x7d", some "standard_deduction_rule"⟩)],
   []⟩

/-- A transaction answering only the standard-deduction lookup query. -/
def lookupTx : Tx :=
  ⟨[], fun y => if y = 2024 then [("Single", (14600 : Rat))] else [],
   fun _ => [], [], fun _ => [], fun _ => [], fun _ => none,
   fun _ => [], fun _ => none, fun _ => [], fun _ _ => none, fun _ _ => []⟩

/-- A two-field builder whose dependency lists form a cycle. -/
def cyclicBuilder : Builder :=
  ⟨2024, [("A", ⟨"A", "f", ["B"]⟩), ("B", ⟨"B", "g", ["A"]⟩)], [], []⟩

/-- The year-view counterpart of `cyclicBuilder`. -/
def cyclicYearFields : List (String × YearField) :=
  [("A", ⟨"A", "f", ["B"], []⟩), ("B", ⟨"B", "g", ["A"], []⟩)]

/-- The diamond: `A` depends on `B` and `C`, both of which depend on `D`;
no cycle exists. -/
def diamondBuilder : Builder :=
  ⟨2024,
   [("A", ⟨"A", "f", ["B", "C"]⟩), ("B", ⟨"B", "g", ["D"]⟩),
    ("C", ⟨"C", "h", ["D"]⟩), ("D", ⟨"D", "k", []⟩)],
   [], []⟩

/-- A rank certifying the diamond dependency graph acyclic: every dependency
edge strictly decreases it. -/
def diamondRank (s : String) : Nat :=
  if s = "A" then 3 else if s = "B" then 2 else if s = "C" then 2
  else if s = "D" then 1 else 0

/-- A builder whose root lists the absent field `X` twice. -/
def unknownDepBuilder : Builder :=
  ⟨2024, [("R", ⟨"R", "f", ["X", "X"]⟩)], [], []⟩

/-- A builder whose root function carries the `tax_bracket_rule` additional
content and two dependencies. -/
def bracketBuilder : Builder :=
  ⟨2024,
   [("r", ⟨"R", "f_tax", ["d1", "d2"]⟩), ("d1", ⟨"D1", "g", []⟩), ("d2", ⟨"D2", "g", []⟩)],
   [("f_tax", ⟨"calculation", none, some "tax_bracket_rule"⟩)],
   []⟩

/-- A taxpayer with no loaded context and no loaded values (the state after
`load_taxpayer_context` finds no filing row). -/
def emptyTaxpayer : TaxpayerState :=
  ⟨"999-99-9999", none, []⟩

/-- A one-field builder with no function specs. -/
def plainBuilder : Builder :=
  ⟨2024, [("W", ⟨"Wages", "f", []⟩)], [], []⟩

/-- A transaction answering the taxpayer income-aggregation query. -/
def taxpayerIncomeTx : Tx :=
  ⟨[], fun _ => [], fun _ => [], [], fun _ => [], fun _ => [], fun _ => none,
   fun _ => [], fun _ => none,
   fun ssn => if ssn = "123-45-6789" then [("W-2 Wages", (65000 : Rat))] else [],
   fun _ _ => none, fun _ _ => []⟩

/-- A taxpayer whose SSN matches `taxpayerIncomeTx`. -/
def incomeTaxpayer : TaxpayerState :=
  ⟨"123-45-6789", none, []⟩

/-- A concrete three-node audit trail. -/
def sampleAudit : CNode :=
  .mk "s1" "income-tax" (15234 : Rat) (some "t*r") none
    (.cons (.mk "s2" "taxable-income" (69245 : Rat) none none .nil)
      (.cons (.mk "s3" "standard-deduction" (13850 : Rat) none none .nil) .nil))

/-! ## Helper lemmas -/

theorem lookup_some_mem {α : Type} {l : List (String × α)} {a : String} {b : α}
    (h : l.lookup a = some b) : (a, b) ∈ l := by
  induction l with
  | nil => simp [List.lookup] at h
  | cons p rest ih =>
    obtain ⟨k, c⟩ := p
    rw [List.lookup] at h
    cases hab : a == k with
    | true =>
      rw [hab] at h
      have hk : a = k := eq_of_beq hab
      have hc : c = b := Option.some.inj h
      subst hk; subst hc
      exact List.mem_cons_self _ _
    | false =>
      rw [hab] at h
      exact List.mem_cons_of_mem _ (ih h)

theorem unvisitedKeys_mono {keys v w : List String} (h : v ⊆ w) :
    unvisitedKeys keys w ≤ unvisitedKeys keys v := by
  apply List.countP_mono_left
  intro a _ ha
  simp only [decide_eq_true_eq] at ha ⊢
  exact fun hav => ha (h hav)

theorem unvisitedKeys_cons_lt {keys v : List String} {a : String}
    (hmem : a ∈ keys) (hv : a ∉ v) :
    unvisitedKeys keys (a :: v) < unvisitedKeys keys v := by
  induction keys with
  | nil => simp at hmem
  | cons b bs ih =>
    unfold unvisitedKeys
    rw [List.countP_cons, List.countP_cons]
    rcases List.mem_cons.mp hmem with hb | hb
    · subst hb
      have h1 : decide (a ∉ a :: v) = false := by simp
      have h2 : decide (a ∉ v) = true := by simp [hv]
      have hle : unvisitedKeys bs (a :: v) ≤ unvisitedKeys bs v :=
        unvisitedKeys_mono (List.subset_cons_self a v)
      unfold unvisitedKeys at hle
      rw [h1, h2]
      simp only [Bool.false_eq_true, if_true, if_false]
      omega
    · have hstrict := ih hb
      have hhead : (if decide (b ∉ a :: v) = true then 1 else 0) ≤
          (if decide (b ∉ v) = true then 1 else 0) := by
        by_cases hbv : b ∈ v
        · simp [hbv]
        · by_cases hba : b ∈ a :: v <;> simp [hba, hbv]
      unfold unvisitedKeys at hstrict
      omega

theorem buildDeps_mono
    {f : String → Bool → List String → Option (String × List String)}
    (hf : ∀ d l v s v', f d l v = some (s, v') → v ⊆ v') :
    ∀ deps hasAdd v s v', buildDeps f deps hasAdd v = some (s, v') → v ⊆ v' := by
  intro deps
  induction deps with
  | nil =>
    intro hasAdd v s v' h
    simp only [buildDeps, Option.some.injEq, Prod.mk.injEq] at h
    obtain ⟨-, rfl⟩ := h
    exact List.Subset.refl v
  | cons d ds ih =>
    intro hasAdd v s v' h
    rw [buildDeps] at h
    cases hf1 : f d (ds.isEmpty && !hasAdd) v with
    | none => simp only [hf1] at h; exact Option.noConfusion h
    | some p =>
      obtain ⟨s1, v1⟩ := p
      simp only [hf1] at h
      cases hf2 : buildDeps f ds hasAdd v1 with
      | none => simp only [hf2] at h; exact Option.noConfusion h
      | some q =>
        obtain ⟨s2, v2⟩ := q
        simp only [hf2, Option.some.injEq, Prod.mk.injEq] at h
        obtain ⟨-, rfl⟩ := h
        exact (hf _ _ _ _ _ hf1).trans (ih _ _ _ _ hf2)

theorem buildDeps_total_mono
    {f : String → Bool → List String → Option (String × List String)}
    {P : List String → Prop}
    (hP : ∀ v w, v ⊆ w → P v → P w)
    (hf : ∀ d l v, P v → ∃ s v', f d l v = some (s, v') ∧ v ⊆ v') :
    ∀ deps hasAdd v, P v →
      ∃ s v', buildDeps f deps hasAdd v = some (s, v') ∧ v ⊆ v' := by
  intro deps
  induction deps with
  | nil => exact fun hasAdd v hv => ⟨"", v, rfl, List.Subset.refl v⟩
  | cons d ds ih =>
    intro hasAdd v hv
    obtain ⟨s1, v1, h1, hsub1⟩ := hf d (ds.isEmpty && !hasAdd) v hv
    obtain ⟨s2, v2, h2, hsub2⟩ := ih hasAdd v1 (hP v v1 hsub1 hv)
    refine ⟨s1 ++ s2, v2, ?_, hsub1.trans hsub2⟩
    simp only [buildDeps, h1, h2]

theorem btA_circ (B : Builder) (tx : Tx) (fuel : Nat) (fid ind : String) (l : Bool)
    (v : List String) (h : fid ∈ v) :
    buildTreeAux B tx (fuel + 1) fid ind l v =
      some (ind ++ "└── (circular reference)\n", v) := by
  rw [buildTreeAux]
  simp [h]

theorem btA_unknown (B : Builder) (tx : Tx) (fuel : Nat) (fid ind : String) (l : Bool)
    (v : List String) (h1 : fid ∉ v) (h2 : B.fields.lookup fid = none) :
    buildTreeAux B tx (fuel + 1) fid ind l v = some ("", fid :: v) := by
  rw [buildTreeAux]
  simp [h1, h2]

theorem btA_agg_leaf (B : Builder) (tx : Tx) (fuel : Nat) (fid ind : String) (l : Bool)
    (v : List String) (field : Field)
    (h1 : fid ∉ v) (h2 : B.fields.lookup fid = some field)
    (h3 : specType (B.function_specs.lookup field.func) = some "aggregation")
    (h4 : get_aggregated_items tx (B.function_specs.lookup field.func) ≠ []) :
    buildTreeAux B tx (fuel + 1) fid ind l v =
      some (nodeHeaderStr field fid ind l "" ++
        display_items (get_aggregated_items tx (B.function_specs.lookup field.func))
          (nextIndentOf ind l) (B.function_specs.lookup field.func),
        fid :: v) := by
  rw [buildTreeAux]
  simp [h1, h2, h3, h4]

/-- The `lookup` display part of `build_tree` (empty unless the function is a
lookup with rows). -/
theorem btA_general (B : Builder) (tx : Tx) (fuel : Nat) (fid ind : String) (l : Bool)
    (v : List String) (field : Field)
    (h1 : fid ∉ v) (h2 : B.fields.lookup fid = some field)
    (h3 : ¬(specType (B.function_specs.lookup field.func) = some "aggregation" ∧
      get_aggregated_items tx (B.function_specs.lookup field.func) ≠ [])) :
    buildTreeAux B tx (fuel + 1) fid ind l v =
      (buildDeps (fun d l' v' => buildTreeAux B tx fuel d (nextIndentOf ind l) l' v')
          field.dependencies
          (get_additional_function_content B tx field.func (nextIndentOf ind l)).isSome
          (fid :: v)).map
        (fun r =>
          (nodeHeaderStr field fid ind l "" ++
            (if specType (B.function_specs.lookup field.func) = some "lookup" ∧
                get_lookup_results tx B.year (B.function_specs.lookup field.func) ≠ [] then
              display_lookup_results
                (get_lookup_results tx B.year (B.function_specs.lookup field.func))
                (nextIndentOf ind l) (B.function_specs.lookup field.func)
            else "") ++
            (if field.dependencies.isEmpty then "" else nextIndentOf ind l ++ "│\n") ++
            r.1 ++
            (get_additional_function_content B tx field.func (nextIndentOf ind l)).getD "",
          r.2)) := by
  rw [buildTreeAux]
  simp only [h2]
  rw [if_neg h1, if_neg h3]
  cases hD : buildDeps (fun d l' v' => buildTreeAux B tx fuel d (nextIndentOf ind l) l' v')
      field.dependencies
      (get_additional_function_content B tx field.func (nextIndentOf ind l)).isSome
      (fid :: v) with
  | none => rfl
  | some r => rfl

theorem btA_mono (B : Builder) (tx : Tx) :
    ∀ fuel fid ind l v s v',
      buildTreeAux B tx fuel fid ind l v = some (s, v') → v ⊆ v' := by
  intro fuel
  induction fuel with
  | zero => intro fid ind l v s v' h; exact Option.noConfusion h
  | succ n ih =>
    intro fid ind l v s v' h
    by_cases hmem : fid ∈ v
    · rw [btA_circ B tx n fid ind l v hmem] at h
      simp only [Option.some.injEq, Prod.mk.injEq] at h
      exact h.2 ▸ List.Subset.refl v
    cases hl : B.fields.lookup fid with
    | none =>
      rw [btA_unknown B tx n fid ind l v hmem hl] at h
      simp only [Option.some.injEq, Prod.mk.injEq] at h
      exact h.2 ▸ List.subset_cons_self fid v
    | some field =>
      by_cases hagg : specType (B.function_specs.lookup field.func) = some "aggregation" ∧
        get_aggregated_items tx (B.function_specs.lookup field.func) ≠ []
      · rw [btA_agg_leaf B tx n fid ind l v field hmem hl hagg.1 hagg.2] at h
        simp only [Option.some.injEq, Prod.mk.injEq] at h
        exact h.2 ▸ List.subset_cons_self fid v
      · rw [btA_general B tx n fid ind l v field hmem hl hagg] at h
        cases hD : buildDeps (fun d l' v' => buildTreeAux B tx n d (nextIndentOf ind l) l' v')
            field.dependencies
            (get_additional_function_content B tx field.func (nextIndentOf ind l)).isSome
            (fid :: v) with
        | none => rw [hD] at h; exact Option.noConfusion h
        | some r =>
          obtain ⟨s1, v1⟩ := r
          rw [hD] at h
          simp only [Option.map_some', Option.some.injEq, Prod.mk.injEq] at h
          have hsub := buildDeps_mono (fun d l' w s2 w' hc => ih d _ l' w s2 w' hc)
            field.dependencies _ (fid :: v) s1 v1 hD
          exact h.2 ▸ (List.subset_cons_self fid v).trans hsub

theorem btA_total (B : Builder) (tx : Tx) :
    ∀ fuel fid ind l v,
      unvisitedKeys (B.fields.map Prod.fst) v < fuel →
      ∃ s v', buildTreeAux B tx fuel fid ind l v = some (s, v') ∧ v ⊆ v' := by
  intro fuel
  induction fuel with
  | zero => intro fid ind l v h; omega
  | succ n ih =>
    intro fid ind l v hfuel
    by_cases hmem : fid ∈ v
    · exact ⟨_, v, btA_circ B tx n fid ind l v hmem, List.Subset.refl v⟩
    cases hl : B.fields.lookup fid with
    | none =>
      exact ⟨"", fid :: v, btA_unknown B tx n fid ind l v hmem hl,
        List.subset_cons_self fid v⟩
    | some field =>
      by_cases hagg : specType (B.function_specs.lookup field.func) = some "aggregation" ∧
        get_aggregated_items tx (B.function_specs.lookup field.func) ≠ []
      · exact ⟨_, fid :: v, btA_agg_leaf B tx n fid ind l v field hmem hl hagg.1 hagg.2,
          List.subset_cons_self fid v⟩
      · have hkey : fid ∈ B.fields.map Prod.fst := by
          exact List.mem_map_of_mem Prod.fst (lookup_some_mem hl)
        have hlt : unvisitedKeys (B.fields.map Prod.fst) (fid :: v) < n := by
          have h1 := unvisitedKeys_cons_lt (v := v) hkey hmem
          omega
        obtain ⟨s, v2, hD, hsub⟩ :=
          buildDeps_total_mono
            (P := fun w => unvisitedKeys (B.fields.map Prod.fst) w < n)
            (fun a b hab hPa => lt_of_le_of_lt (unvisitedKeys_mono hab) hPa)
            (fun d l' w hP => ih d (nextIndentOf ind l) l' w hP)
            field.dependencies
            (get_additional_function_content B tx field.func (nextIndentOf ind l)).isSome
            (fid :: v) hlt
        have heq := btA_general B tx n fid ind l v field hmem hl hagg
        rw [hD, Option.map_some'] at heq
        exact ⟨_, v2, heq, (List.subset_cons_self fid v).trans hsub⟩

theorem buildDeps_congr
    {f g : String → Bool → List String → Option (String × List String)}
    (h : ∀ d l v, f d l v = g d l v) :
    ∀ deps hasAdd v, buildDeps f deps hasAdd v = buildDeps g deps hasAdd v := by
  intro deps
  induction deps with
  | nil => intro hasAdd v; rfl
  | cons d ds ih =>
    intro hasAdd v
    rw [buildDeps, buildDeps, h]
    cases g d (ds.isEmpty && !hasAdd) v with
    | none => rfl
    | some p =>
      obtain ⟨s1, v1⟩ := p
      simp only [ih]

theorem yearDeps_mono
    {f : String → Bool → List String → Option (String × List String)}
    {sepLine : String} {hasTax : Bool}
    (hf : ∀ d l v s v', f d l v = some (s, v') → v ⊆ v') :
    ∀ deps v s v', yearDeps f sepLine hasTax deps v = some (s, v') → v ⊆ v' := by
  intro deps
  induction deps with
  | nil =>
    intro v s v' h
    simp only [yearDeps, Option.some.injEq, Prod.mk.injEq] at h
    obtain ⟨-, rfl⟩ := h
    exact List.Subset.refl v
  | cons d ds ih =>
    intro v s v' h
    rw [yearDeps] at h
    cases hf1 : f d (ds.isEmpty && !hasTax) v with
    | none => simp only [hf1] at h; exact Option.noConfusion h
    | some p =>
      obtain ⟨s1, v1⟩ := p
      simp only [hf1] at h
      cases hf2 : yearDeps f sepLine hasTax ds v1 with
      | none => simp only [hf2] at h; exact Option.noConfusion h
      | some q =>
        obtain ⟨s2, v2⟩ := q
        simp only [hf2, Option.some.injEq, Prod.mk.injEq] at h
        obtain ⟨-, rfl⟩ := h
        exact (hf _ _ _ _ _ hf1).trans (ih _ _ _ hf2)

theorem yearDeps_total_mono
    {f : String → Bool → List String → Option (String × List String)}
    {sepLine : String} {hasTax : Bool}
    {P : List String → Prop}
    (hP : ∀ v w, v ⊆ w → P v → P w)
    (hf : ∀ d l v, P v → ∃ s v', f d l v = some (s, v') ∧ v ⊆ v') :
    ∀ deps v, P v →
      ∃ s v', yearDeps f sepLine hasTax deps v = some (s, v') ∧ v ⊆ v' := by
  intro deps
  induction deps with
  | nil => exact fun v hv => ⟨"", v, rfl, List.Subset.refl v⟩
  | cons d ds ih =>
    intro v hv
    obtain ⟨s1, v1, h1, hsub1⟩ := hf d (ds.isEmpty && !hasTax) v hv
    obtain ⟨s2, v2, h2, hsub2⟩ := ih v1 (hP v v1 hsub1 hv)
    refine ⟨sepLine ++ s1 ++ s2, v2, ?_, hsub1.trans hsub2⟩
    simp only [yearDeps, h1, h2]

theorem yearDeps_congr
    {f g : String → Bool → List String → Option (String × List String)}
    {sepLine : String} {hasTax : Bool}
    (h : ∀ d l v, f d l v = g d l v) :
    ∀ deps v, yearDeps f sepLine hasTax deps v = yearDeps g sepLine hasTax deps v := by
  intro deps
  induction deps with
  | nil => intro v; rfl
  | cons d ds ih =>
    intro v
    rw [yearDeps, yearDeps, h]
    cases g d (ds.isEmpty && !hasTax) v with
    | none => rfl
    | some p =>
      obtain ⟨s1, v1⟩ := p
      simp only [ih]

theorem yt_circ (F : List (String × YearField)) (tx : Tx) (year : Int) (fuel : Nat)
    (rid ind : String) (l : Bool) (v : List String) (h : rid ∈ v) :
    yearTreeAux F tx year (fuel + 1) rid ind l v =
      some (ind ++ "└── (circular reference)\n", v) := by
  rw [yearTreeAux]
  simp [h]

theorem yt_unknown (F : List (String × YearField)) (tx : Tx) (year : Int) (fuel : Nat)
    (rid ind : String) (l : Bool) (v : List String)
    (h1 : rid ∉ v) (h2 : F.lookup rid = none) :
    yearTreeAux F tx year (fuel + 1) rid ind l v = some ("", rid :: v) := by
  rw [yearTreeAux]
  simp [h1, h2]

theorem yt_income_leaf (F : List (String × YearField)) (tx : Tx) (year : Int) (fuel : Nat)
    (rid ind : String) (l : Bool) (v : List String) (field : YearField)
    (h1 : rid ∉ v) (h2 : F.lookup rid = some field)
    (h3 : field.func = "calculate_total_income") (h4 : get_all_income_types tx ≠ []) :
    yearTreeAux F tx year (fuel + 1) rid ind l v =
      some (yearNodeStr field rid ind l ++ yearNextIndent ind l ++ "│\n" ++
        yearIncomeLoop (yearNextIndent ind l) possibleIncomeTypes, rid :: v) := by
  rw [yearTreeAux]
  simp [h1, h2, h3, h4]

theorem yt_deductions_leaf (F : List (String × YearField)) (tx : Tx) (year : Int)
    (fuel : Nat) (ind : String) (l : Bool) (v : List String) (field : YearField)
    (h1 : "1040-line-12" ∉ v) (h2 : F.lookup "1040-line-12" = some field)
    (h3 : field.func ≠ "calculate_total_income") :
    yearTreeAux F tx year (fuel + 1) "1040-line-12" ind l v =
      some (yearNodeStr field "1040-line-12" ind l ++
        deductionsBlock tx year (yearNextIndent ind l), "1040-line-12" :: v) := by
  rw [yearTreeAux]
  simp [h1, h2, h3]

theorem yt_general (F : List (String × YearField)) (tx : Tx) (year : Int) (fuel : Nat)
    (rid ind : String) (l : Bool) (v : List String) (field : YearField)
    (h1 : rid ∉ v) (h2 : F.lookup rid = some field)
    (h3 : ¬(field.func = "calculate_total_income" ∧ get_all_income_types tx ≠ []))
    (h4 : ¬(field.func ≠ "calculate_total_income" ∧ rid = "1040-line-12")) :
    yearTreeAux F tx year (fuel + 1) rid ind l v =
      (yearDeps
          (fun d lc vc =>
            yearTreeAux F tx year fuel d (dropRightStr (yearNextIndent ind l) 4 ++ "    ") lc vc)
          (dropRightStr (yearNextIndent ind l) 4 ++ "    │\n")
          (field.func = "calculate_federal_tax")
          field.dependencies (rid :: v)).map
        (fun r =>
          (yearNodeStr field rid ind l ++ r.1 ++
            (if field.func = "calculate_federal_tax" then
              taxLookupBlock tx year (dropRightStr (yearNextIndent ind l) 4)
            else ""),
          r.2)) := by
  rw [yearTreeAux]
  simp only [h2]
  rw [if_neg h1, if_neg h3, if_neg h4]
  cases hD : yearDeps
      (fun d lc vc =>
        yearTreeAux F tx year fuel d (dropRightStr (yearNextIndent ind l) 4 ++ "    ") lc vc)
      (dropRightStr (yearNextIndent ind l) 4 ++ "    │\n")
      (field.func = "calculate_federal_tax")
      field.dependencies (rid :: v) with
  | none => rfl
  | some r => rfl

theorem yt_mono (F : List (String × YearField)) (tx : Tx) (year : Int) :
    ∀ fuel rid ind l v s v',
      yearTreeAux F tx year fuel rid ind l v = some (s, v') → v ⊆ v' := by
  intro fuel
  induction fuel with
  | zero => intro rid ind l v s v' h; exact Option.noConfusion h
  | succ n ih =>
    intro rid ind l v s v' h
    by_cases hmem : rid ∈ v
    · rw [yt_circ F tx year n rid ind l v hmem] at h
      simp only [Option.some.injEq, Prod.mk.injEq] at h
      exact h.2 ▸ List.Subset.refl v
    cases hl : F.lookup rid with
    | none =>
      rw [yt_unknown F tx year n rid ind l v hmem hl] at h
      simp only [Option.some.injEq, Prod.mk.injEq] at h
      exact h.2 ▸ List.subset_cons_self rid v
    | some field =>
      by_cases hinc : field.func = "calculate_total_income" ∧ get_all_income_types tx ≠ []
      · rw [yt_income_leaf F tx year n rid ind l v field hmem hl hinc.1 hinc.2] at h
        simp only [Option.some.injEq, Prod.mk.injEq] at h
        exact h.2 ▸ List.subset_cons_self rid v
      by_cases hded : field.func ≠ "calculate_total_income" ∧ rid = "1040-line-12"
      · obtain ⟨hfn, hrid⟩ := hded
        subst hrid
        rw [yt_deductions_leaf F tx year n ind l v field hmem hl hfn] at h
        simp only [Option.some.injEq, Prod.mk.injEq] at h
        exact h.2 ▸ List.subset_cons_self _ v
      · rw [yt_general F tx year n rid ind l v field hmem hl hinc hded] at h
        cases hD : yearDeps
            (fun d lc vc =>
              yearTreeAux F tx year n d (dropRightStr (yearNextIndent ind l) 4 ++ "    ") lc vc)
            (dropRightStr (yearNextIndent ind l) 4 ++ "    │\n")
            (field.func = "calculate_federal_tax")
            field.dependencies (rid :: v) with
        | none => rw [hD] at h; exact Option.noConfusion h
        | some r =>
          obtain ⟨s1, v1⟩ := r
          rw [hD] at h
          simp only [Option.map_some', Option.some.injEq, Prod.mk.injEq] at h
          have hsub := yearDeps_mono (fun d lc w s2 w' hc => ih d _ lc w s2 w' hc)
            field.dependencies (rid :: v) s1 v1 hD
          exact h.2 ▸ (List.subset_cons_self rid v).trans hsub

theorem yt_total (F : List (String × YearField)) (tx : Tx) (year : Int) :
    ∀ fuel rid ind l v,
      unvisitedKeys (F.map Prod.fst) v < fuel →
      ∃ s v', yearTreeAux F tx year fuel rid ind l v = some (s, v') ∧ v ⊆ v' := by
  intro fuel
  induction fuel with
  | zero => intro rid ind l v h; omega
  | succ n ih =>
    intro rid ind l v hfuel
    by_cases hmem : rid ∈ v
    · exact ⟨_, v, yt_circ F tx year n rid ind l v hmem, List.Subset.refl v⟩
    cases hl : F.lookup rid with
    | none =>
      exact ⟨"", rid :: v, yt_unknown F tx year n rid ind l v hmem hl,
        List.subset_cons_self rid v⟩
    | some field =>
      by_cases hinc : field.func = "calculate_total_income" ∧ get_all_income_types tx ≠ []
      · exact ⟨_, rid :: v, yt_income_leaf F tx year n rid ind l v field hmem hl hinc.1 hinc.2,
          List.subset_cons_self rid v⟩
      by_cases hded : field.func ≠ "calculate_total_income" ∧ rid = "1040-line-12"
      · obtain ⟨hfn, hrid⟩ := hded
        subst hrid
        exact ⟨_, _ :: v, yt_deductions_leaf F tx year n ind l v field hmem hl hfn,
          List.subset_cons_self _ v⟩
      · have hkey : rid ∈ F.map Prod.fst := by
          exact List.mem_map_of_mem Prod.fst (lookup_some_mem hl)
        have hlt : unvisitedKeys (F.map Prod.fst) (rid :: v) < n := by
          have h1 := unvisitedKeys_cons_lt (v := v) hkey hmem
          omega
        obtain ⟨s, v2, hD, hsub⟩ :=
          yearDeps_total_mono
            (P := fun w => unvisitedKeys (F.map Prod.fst) w < n)
            (fun a b hab hPa => lt_of_le_of_lt (unvisitedKeys_mono hab) hPa)
            (fun d lc w hP =>
              ih d (dropRightStr (yearNextIndent ind l) 4 ++ "    ") lc w hP)
            field.dependencies (rid :: v) hlt
        have heq := yt_general F tx year n rid ind l v field hmem hl hinc hded
        rw [hD, Option.map_some'] at heq
        exact ⟨_, v2, heq, (List.subset_cons_self rid v).trans hsub⟩

theorem tp_circ (B : Builder) (tx : Tx) (T : TaxpayerState) (fuel : Nat)
    (fid ind : String) (l : Bool) (v : List String) (h : fid ∈ v) :
    taxpayerBuildTreeAux B tx T (fuel + 1) fid ind l v =
      some (ind ++ "└── (circular reference)\n", v) := by
  rw [taxpayerBuildTreeAux]
  simp [h]

theorem tp_unknown (B : Builder) (tx : Tx) (T : TaxpayerState) (fuel : Nat)
    (fid ind : String) (l : Bool) (v : List String)
    (h1 : fid ∉ v) (h2 : B.fields.lookup fid = none) :
    taxpayerBuildTreeAux B tx T (fuel + 1) fid ind l v = some ("", fid :: v) := by
  rw [taxpayerBuildTreeAux]
  simp [h1, h2]

theorem tp_agg_leaf (B : Builder) (tx : Tx) (T : TaxpayerState) (fuel : Nat)
    (fid ind : String) (l : Bool) (v : List String) (field : Field)
    (h1 : fid ∉ v) (h2 : B.fields.lookup fid = some field)
    (h3 : specType (B.function_specs.lookup field.func) = some "aggregation")
    (h4 : get_taxpayer_aggregated_items tx T.ssn (B.function_specs.lookup field.func) ≠ []) :
    taxpayerBuildTreeAux B tx T (fuel + 1) fid ind l v =
      some (nodeHeaderStr field fid ind l (valueStrOf T fid) ++
        display_taxpayer_items
          (get_taxpayer_aggregated_items tx T.ssn (B.function_specs.lookup field.func))
          (nextIndentOf ind l),
        fid :: v) := by
  rw [taxpayerBuildTreeAux]
  simp [h1, h2, h3, h4]

theorem tp_general (B : Builder) (tx : Tx) (T : TaxpayerState) (fuel : Nat)
    (fid ind : String) (l : Bool) (v : List String) (field : Field)
    (h1 : fid ∉ v) (h2 : B.fields.lookup fid = some field)
    (h3 : ¬(specType (B.function_specs.lookup field.func) = some "aggregation" ∧
      get_taxpayer_aggregated_items tx T.ssn (B.function_specs.lookup field.func) ≠ [])) :
    taxpayerBuildTreeAux B tx T (fuel + 1) fid ind l v =
      (buildDeps (fun d l' v' => taxpayerBuildTreeAux B tx T fuel d (nextIndentOf ind l) l' v')
          field.dependencies
          (get_taxpayer_additional_content B tx T field.func (nextIndentOf ind l)).isSome
          (fid :: v)).map
        (fun r =>
          (nodeHeaderStr field fid ind l (valueStrOf T fid) ++
            (if specType (B.function_specs.lookup field.func) = some "lookup" ∧
                get_taxpayer_lookup_results tx B.year T (B.function_specs.lookup field.func)
                  ≠ [] then
              display_taxpayer_lookup_results
                (get_taxpayer_lookup_results tx B.year T (B.function_specs.lookup field.func))
                (nextIndentOf ind l)
            else "") ++
            (if field.dependencies.isEmpty then "" else nextIndentOf ind l ++ "│\n") ++
            r.1 ++
            (get_taxpayer_additional_content B tx T field.func (nextIndentOf ind l)).getD "",
          r.2)) := by
  rw [taxpayerBuildTreeAux]
  simp only [h2]
  rw [if_neg h1, if_neg h3]
  cases hD : buildDeps
      (fun d l' v' => taxpayerBuildTreeAux B tx T fuel d (nextIndentOf ind l) l' v')
      field.dependencies
      (get_taxpayer_additional_content B tx T field.func (nextIndentOf ind l)).isSome
      (fid :: v) with
  | none => rfl
  | some r => rfl

/-! Lemmas for the instrumented builder `buildTreeAuxT`. -/

theorem btT_circ (B : Builder) (tx : Tx) (fuel : Nat) (fid ind : String) (l : Bool)
    (v : List String) (h : fid ∈ v) :
    buildTreeAuxT B tx (fuel + 1) fid ind l v =
      some (ind ++ "└── (circular reference)\n", v, []) := by
  rw [buildTreeAuxT]
  simp [h]

theorem btT_unknown (B : Builder) (tx : Tx) (fuel : Nat) (fid ind : String) (l : Bool)
    (v : List String) (h1 : fid ∉ v) (h2 : B.fields.lookup fid = none) :
    buildTreeAuxT B tx (fuel + 1) fid ind l v = some ("", fid :: v, []) := by
  rw [buildTreeAuxT]
  simp [h1, h2]

theorem btT_agg_leaf (B : Builder) (tx : Tx) (fuel : Nat) (fid ind : String) (l : Bool)
    (v : List String) (field : Field)
    (h1 : fid ∉ v) (h2 : B.fields.lookup fid = some field)
    (h3 : specType (B.function_specs.lookup field.func) = some "aggregation")
    (h4 : get_aggregated_items tx (B.function_specs.lookup field.func) ≠ []) :
    buildTreeAuxT B tx (fuel + 1) fid ind l v =
      some (nodeHeaderStr field fid ind l "" ++
        display_items (get_aggregated_items tx (B.function_specs.lookup field.func))
          (nextIndentOf ind l) (B.function_specs.lookup field.func),
        fid :: v, [fid]) := by
  rw [buildTreeAuxT]
  simp [h1, h2, h3, h4]

theorem btT_general (B : Builder) (tx : Tx) (fuel : Nat) (fid ind : String) (l : Bool)
    (v : List String) (field : Field)
    (h1 : fid ∉ v) (h2 : B.fields.lookup fid = some field)
    (h3 : ¬(specType (B.function_specs.lookup field.func) = some "aggregation" ∧
      get_aggregated_items tx (B.function_specs.lookup field.func) ≠ [])) :
    buildTreeAuxT B tx (fuel + 1) fid ind l v =
      (buildDepsT (fun d l' v' => buildTreeAuxT B tx fuel d (nextIndentOf ind l) l' v')
          field.dependencies
          (get_additional_function_content B tx field.func (nextIndentOf ind l)).isSome
          (fid :: v)).map
        (fun r =>
          (nodeHeaderStr field fid ind l "" ++
            (if specType (B.function_specs.lookup field.func) = some "lookup" ∧
                get_lookup_results tx B.year (B.function_specs.lookup field.func) ≠ [] then
              display_lookup_results
                (get_lookup_results tx B.year (B.function_specs.lookup field.func))
                (nextIndentOf ind l) (B.function_specs.lookup field.func)
            else "") ++
            (if field.dependencies.isEmpty then "" else nextIndentOf ind l ++ "│\n") ++
            r.1 ++
            (get_additional_function_content B tx field.func (nextIndentOf ind l)).getD "",
          r.2.1, fid :: r.2.2)) := by
  rw [buildTreeAuxT]
  simp only [h2]
  rw [if_neg h1, if_neg h3]
  cases hD : buildDepsT (fun d l' v' => buildTreeAuxT B tx fuel d (nextIndentOf ind l) l' v')
      field.dependencies
      (get_additional_function_content B tx field.func (nextIndentOf ind l)).isSome
      (fid :: v) with
  | none => rfl
  | some r => rfl

/-- Erasing the ghost trace from `buildDepsT` yields `buildDeps`. -/
theorem buildDepsT_proj
    {g : String → Bool → List String → Option (String × List String × List String)}
    {f : String → Bool → List String → Option (String × List String)}
    (hfg : ∀ d l v, (g d l v).map (fun r => (r.1, r.2.1)) = f d l v) :
    ∀ deps hasAdd v,
      (buildDepsT g deps hasAdd v).map (fun r => (r.1, r.2.1)) =
        buildDeps f deps hasAdd v := by
  intro deps
  induction deps with
  | nil => intro hasAdd v; rfl
  | cons d ds ih =>
    intro hasAdd v
    rw [buildDepsT, buildDeps, ← hfg]
    cases hg : g d (ds.isEmpty && !hasAdd) v with
    | none => rfl
    | some r =>
      obtain ⟨s1, v1, t1⟩ := r
      simp only [Option.map_some']
      rw [← ih hasAdd v1]
      cases hgd : buildDepsT g ds hasAdd v1 with
      | none => rfl
      | some q => rfl

theorem btT_proj (B : Builder) (tx : Tx) :
    ∀ fuel fid ind l v,
      (buildTreeAuxT B tx fuel fid ind l v).map (fun r => (r.1, r.2.1)) =
        buildTreeAux B tx fuel fid ind l v := by
  intro fuel
  induction fuel with
  | zero => intro fid ind l v; rfl
  | succ n ih =>
    intro fid ind l v
    by_cases hmem : fid ∈ v
    · rw [btT_circ B tx n fid ind l v hmem, btA_circ B tx n fid ind l v hmem]
      rfl
    cases hl : B.fields.lookup fid with
    | none =>
      rw [btT_unknown B tx n fid ind l v hmem hl, btA_unknown B tx n fid ind l v hmem hl]
      rfl
    | some field =>
      by_cases hagg : specType (B.function_specs.lookup field.func) = some "aggregation" ∧
        get_aggregated_items tx (B.function_specs.lookup field.func) ≠ []
      · rw [btT_agg_leaf B tx n fid ind l v field hmem hl hagg.1 hagg.2,
          btA_agg_leaf B tx n fid ind l v field hmem hl hagg.1 hagg.2]
        rfl
      · rw [btT_general B tx n fid ind l v field hmem hl hagg,
          btA_general B tx n fid ind l v field hmem hl hagg]
        rw [← buildDepsT_proj (fun d l' v' => ih d (nextIndentOf ind l) l' v')]
        cases hD : buildDepsT (fun d l' v' => buildTreeAuxT B tx n d (nextIndentOf ind l) l' v')
            field.dependencies
            (get_additional_function_content B tx field.func (nextIndentOf ind l)).isSome
            (fid :: v) with
        | none => rfl
        | some r => rfl

/-- The ghost-trace invariant for the dependency loop: the expansion trace is
duplicate-free, fresh with respect to the incoming visited set, and contained
in the outgoing one, which only grows. -/
theorem buildDepsT_trace
    {g : String → Bool → List String → Option (String × List String × List String)}
    (hg : ∀ d l v s v' tr, g d l v = some (s, v', tr) →
      tr.Nodup ∧ (∀ x ∈ tr, x ∉ v) ∧ (∀ x ∈ tr, x ∈ v') ∧ v ⊆ v') :
    ∀ deps hasAdd v s v' tr,
      buildDepsT g deps hasAdd v = some (s, v', tr) →
      tr.Nodup ∧ (∀ x ∈ tr, x ∉ v) ∧ (∀ x ∈ tr, x ∈ v') ∧ v ⊆ v' := by
  intro deps
  induction deps with
  | nil =>
    intro hasAdd v s v' tr h
    simp only [buildDepsT, Option.some.injEq, Prod.mk.injEq] at h
    obtain ⟨-, rfl, rfl⟩ := h
    exact ⟨List.nodup_nil, by simp, by simp, List.Subset.refl v⟩
  | cons d ds ih =>
    intro hasAdd v s v' tr h
    rw [buildDepsT] at h
    cases hg1 : g d (ds.isEmpty && !hasAdd) v with
    | none => simp only [hg1] at h; exact Option.noConfusion h
    | some p =>
      obtain ⟨s1, v1, t1⟩ := p
      simp only [hg1] at h
      cases hg2 : buildDepsT g ds hasAdd v1 with
      | none => simp only [hg2] at h; exact Option.noConfusion h
      | some q =>
        obtain ⟨s2, v2, t2⟩ := q
        simp only [hg2, Option.some.injEq, Prod.mk.injEq] at h
        obtain ⟨-, rfl, rfl⟩ := h
        obtain ⟨hn1, hf1, hc1, hs1⟩ := hg _ _ _ _ _ _ hg1
        obtain ⟨hn2, hf2, hc2, hs2⟩ := ih _ _ _ _ _ hg2
        refine ⟨?_, ?_, ?_, hs1.trans hs2⟩
        · rw [List.nodup_append]
          exact ⟨hn1, hn2, fun x hx1 hx2 => hf2 x hx2 (hc1 x hx1)⟩
        · intro x hx
          rcases List.mem_append.mp hx with hx1 | hx2
          · exact hf1 x hx1
          · exact fun hv => hf2 x hx2 (hs1 hv)
        · intro x hx
          rcases List.mem_append.mp hx with hx1 | hx2
          · exact hs2 (hc1 x hx1)
          · exact hc2 x hx2

/-- The ghost-trace invariant for the instrumented builder. -/
theorem btT_trace (B : Builder) (tx : Tx) :
    ∀ fuel fid ind l v s v' tr,
      buildTreeAuxT B tx fuel fid ind l v = some (s, v', tr) →
      tr.Nodup ∧ (∀ x ∈ tr, x ∉ v) ∧ (∀ x ∈ tr, x ∈ v') ∧ v ⊆ v' := by
  intro fuel
  induction fuel with
  | zero => intro fid ind l v s v' tr h; exact Option.noConfusion h
  | succ n ih =>
    intro fid ind l v s v' tr h
    by_cases hmem : fid ∈ v
    · rw [btT_circ B tx n fid ind l v hmem] at h
      simp only [Option.some.injEq, Prod.mk.injEq] at h
      obtain ⟨-, rfl, rfl⟩ := h
      exact ⟨List.nodup_nil, by simp, by simp, List.Subset.refl v⟩
    cases hl : B.fields.lookup fid with
    | none =>
      rw [btT_unknown B tx n fid ind l v hmem hl] at h
      simp only [Option.some.injEq, Prod.mk.injEq] at h
      obtain ⟨-, rfl, rfl⟩ := h
      exact ⟨List.nodup_nil, by simp, by simp, List.subset_cons_self fid v⟩
    | some field =>
      by_cases hagg : specType (B.function_specs.lookup field.func) = some "aggregation" ∧
        get_aggregated_items tx (B.function_specs.lookup field.func) ≠ []
      · rw [btT_agg_leaf B tx n fid ind l v field hmem hl hagg.1 hagg.2] at h
        simp only [Option.some.injEq, Prod.mk.injEq] at h
        obtain ⟨-, rfl, rfl⟩ := h
        refine ⟨List.nodup_singleton fid, ?_, ?_, List.subset_cons_self fid v⟩
        · intro x hx
          rw [List.mem_singleton] at hx
          exact hx ▸ hmem
        · intro x hx
          rw [List.mem_singleton] at hx
          exact hx ▸ List.mem_cons_self fid v
      · rw [btT_general B tx n fid ind l v field hmem hl hagg] at h
        cases hD : buildDepsT (fun d l' v' => buildTreeAuxT B tx n d (nextIndentOf ind l) l' v')
            field.dependencies
            (get_additional_function_content B tx field.func (nextIndentOf ind l)).isSome
            (fid :: v) with
        | none => rw [hD] at h; exact Option.noConfusion h
        | some r =>
          obtain ⟨s2, v2, t2⟩ := r
          rw [hD] at h
          simp only [Option.map_some', Option.some.injEq, Prod.mk.injEq] at h
          obtain ⟨-, rfl, rfl⟩ := h
          obtain ⟨hn2, hf2, hc2, hs2⟩ :=
            buildDepsT_trace (fun d l' w s1 w' tr1 hc => ih d _ l' w s1 w' tr1 hc)
              field.dependencies _ (fid :: v) s2 v2 t2 hD
          refine ⟨?_, ?_, ?_, (List.subset_cons_self fid v).trans hs2⟩
          · rw [List.nodup_cons]
            exact ⟨fun hx => hf2 fid hx (List.mem_cons_self fid v), hn2⟩
          · intro x hx
            rcases List.mem_cons.mp hx with rfl | hx2
            · exact hmem
            · exact fun hv => hf2 x hx2 (List.mem_cons_of_mem fid hv)
          · intro x hx
            rcases List.mem_cons.mp hx with rfl | hx2
            · exact hs2 (List.mem_cons_self x v)
            · exact hc2 x hx2

/-- Inversion of the dependency fold into the chain relation. -/
theorem buildDeps_chain
    {f : String → Bool → List String → Option (String × List String)} :
    ∀ deps hasAdd v s v',
      buildDeps f deps hasAdd v = some (s, v') → DepsChain f deps hasAdd v s v' := by
  intro deps
  induction deps with
  | nil =>
    intro hasAdd v s v' h
    simp only [buildDeps, Option.some.injEq, Prod.mk.injEq] at h
    obtain ⟨rfl, rfl⟩ := h
    exact DepsChain.nil hasAdd v
  | cons d ds ih =>
    intro hasAdd v s v' h
    rw [buildDeps] at h
    cases hf1 : f d (ds.isEmpty && !hasAdd) v with
    | none => simp only [hf1] at h; exact Option.noConfusion h
    | some p =>
      obtain ⟨s1, v1⟩ := p
      simp only [hf1] at h
      cases hf2 : buildDeps f ds hasAdd v1 with
      | none => simp only [hf2] at h; exact Option.noConfusion h
      | some q =>
        obtain ⟨s2, v2⟩ := q
        simp only [hf2, Option.some.injEq, Prod.mk.injEq] at h
        obtain ⟨rfl, rfl⟩ := h
        exact DepsChain.cons d ds hasAdd v s1 v1 s2 v2 hf1 (ih hasAdd v1 s2 v2 hf2)

/-- `build_tree` reads the transaction only through the income-type rows and
the year-indexed deduction and bracket rows. -/
theorem btA_tx_congr (B : Builder) (tx tx' : Tx)
    (h1 : tx.incomeTypeNames = tx'.incomeTypeNames)
    (h2 : tx.stdDeductionRows B.year = tx'.stdDeductionRows B.year)
    (h3 : tx.taxBracketRows B.year = tx'.taxBracketRows B.year) :
    ∀ fuel fid ind l v,
      buildTreeAux B tx fuel fid ind l v = buildTreeAux B tx' fuel fid ind l v := by
  intro fuel
  induction fuel with
  | zero => intro fid ind l v; rfl
  | succ n ih =>
    intro fid ind l v
    by_cases hmem : fid ∈ v
    · rw [btA_circ B tx n fid ind l v hmem, btA_circ B tx' n fid ind l v hmem]
    cases hl : B.fields.lookup fid with
    | none => rw [btA_unknown B tx n fid ind l v hmem hl, btA_unknown B tx' n fid ind l v hmem hl]
    | some field =>
      have hAG : get_aggregated_items tx (B.function_specs.lookup field.func) =
          get_aggregated_items tx' (B.function_specs.lookup field.func) := by
        simp only [get_aggregated_items, h1]
      have hLO : get_lookup_results tx B.year (B.function_specs.lookup field.func) =
          get_lookup_results tx' B.year (B.function_specs.lookup field.func) := by
        simp only [get_lookup_results, h2]
      have hAD : get_additional_function_content B tx field.func (nextIndentOf ind l) =
          get_additional_function_content B tx' field.func (nextIndentOf ind l) := by
        simp only [get_additional_function_content, display_tax_brackets, h3]
      by_cases hagg : specType (B.function_specs.lookup field.func) = some "aggregation" ∧
        get_aggregated_items tx (B.function_specs.lookup field.func) ≠ []
      · rw [btA_agg_leaf B tx n fid ind l v field hmem hl hagg.1 hagg.2,
          btA_agg_leaf B tx' n fid ind l v field hmem hl hagg.1 (hAG ▸ hagg.2), hAG]
      · rw [btA_general B tx n fid ind l v field hmem hl hagg,
          btA_general B tx' n fid ind l v field hmem hl (by rw [← hAG]; exact hagg)]
        rw [← hLO, ← hAD,
          buildDeps_congr (fun d l' v' => ih d (nextIndentOf ind l) l' v')
            field.dependencies _ (fid :: v)]

/-- `build_generic_year_tree` reads the transaction only through the income
types, the year-indexed deduction, itemized and bracket rows, the per-display
limits and the per-status display names. -/
theorem yt_tx_congr (F : List (String × YearField)) (tx tx' : Tx) (year : Int)
    (k1 : tx.incomeTypes = tx'.incomeTypes)
    (k2 : tx.stdDeductionsByStatus year = tx'.stdDeductionsByStatus year)
    (k3 : tx.itemizedDisplays year = tx'.itemizedDisplays year)
    (k4 : tx.deductionLimit = tx'.deductionLimit)
    (k5 : tx.taxBracketsByStatus year = tx'.taxBracketsByStatus year)
    (k6 : tx.filingStatusDisplay = tx'.filingStatusDisplay) :
    ∀ fuel rid ind l v,
      yearTreeAux F tx year fuel rid ind l v = yearTreeAux F tx' year fuel rid ind l v := by
  have hdisp : ∀ s, get_filing_status_display tx s = get_filing_status_display tx' s := by
    intro s
    simp only [get_filing_status_display, k6]
  have hloop : ∀ base allB ss,
      yearStatusLoop tx base allB ss = yearStatusLoop tx' base allB ss := by
    intro base allB ss
    induction ss with
    | nil => rfl
    | cons s rest ihs => rw [yearStatusLoop, yearStatusLoop, hdisp, ihs]
  have hlook : ∀ base, taxLookupBlock tx year base = taxLookupBlock tx' year base := by
    intro base
    simp only [taxLookupBlock, get_all_tax_brackets, k5, hloop]
  have hded : ∀ ni, deductionsBlock tx year ni = deductionsBlock tx' year ni := by
    intro ni
    simp only [deductionsBlock, get_all_standard_deductions, get_itemized_deductions,
      k2, k3, k4]
  intro fuel
  induction fuel with
  | zero => intro rid ind l v; rfl
  | succ n ih =>
    intro rid ind l v
    by_cases hmem : rid ∈ v
    · rw [yt_circ F tx year n rid ind l v hmem, yt_circ F tx' year n rid ind l v hmem]
    cases hl : F.lookup rid with
    | none =>
      rw [yt_unknown F tx year n rid ind l v hmem hl,
        yt_unknown F tx' year n rid ind l v hmem hl]
    | some field =>
      have hIT : get_all_income_types tx = get_all_income_types tx' := by
        simp only [get_all_income_types, k1]
      by_cases hinc : field.func = "calculate_total_income" ∧ get_all_income_types tx ≠ []
      · rw [yt_income_leaf F tx year n rid ind l v field hmem hl hinc.1 hinc.2,
          yt_income_leaf F tx' year n rid ind l v field hmem hl hinc.1 (hIT ▸ hinc.2)]
      by_cases hdedc : field.func ≠ "calculate_total_income" ∧ rid = "1040-line-12"
      · obtain ⟨hfn, hrid⟩ := hdedc
        subst hrid
        rw [yt_deductions_leaf F tx year n ind l v field hmem hl hfn,
          yt_deductions_leaf F tx' year n ind l v field hmem hl hfn, hded]
      · rw [yt_general F tx year n rid ind l v field hmem hl hinc hdedc,
          yt_general F tx' year n rid ind l v field hmem hl (by rw [← hIT]; exact hinc) hdedc]
        rw [← hlook,
          yearDeps_congr
            (fun d lc vc =>
              ih d (dropRightStr (yearNextIndent ind l) 4 ++ "    ") lc vc)
            field.dependencies (rid :: v)]

/-- The two builders' recursions coincide whenever the taxpayer-specific
content channels (value map, aggregation items, lookup rows, additional
bracket content) carry the same information as the generic ones. -/
theorem tp_generic_congr (B : Builder) (tx : Tx) (T : TaxpayerState)
    (H1 : ∀ spec : Option FuncSpec,
      get_taxpayer_aggregated_items tx T.ssn spec = [] ↔ get_aggregated_items tx spec = [])
    (H2 : ∀ (spec : Option FuncSpec) (ni : String),
      get_taxpayer_aggregated_items tx T.ssn spec ≠ [] →
      display_taxpayer_items (get_taxpayer_aggregated_items tx T.ssn spec) ni =
        display_items (get_aggregated_items tx spec) ni spec)
    (H3 : ∀ spec : Option FuncSpec,
      get_taxpayer_lookup_results tx B.year T spec = [] ↔
        get_lookup_results tx B.year spec = [])
    (H4 : ∀ (spec : Option FuncSpec) (ni : String),
      get_taxpayer_lookup_results tx B.year T spec ≠ [] →
      display_taxpayer_lookup_results (get_taxpayer_lookup_results tx B.year T spec) ni =
        display_lookup_results (get_lookup_results tx B.year spec) ni spec)
    (H5 : ∀ (fname ni : String),
      get_taxpayer_additional_content B tx T fname ni =
        get_additional_function_content B tx fname ni)
    (H6 : ∀ fid, T.values.lookup fid = none) :
    ∀ fuel fid ind l v,
      taxpayerBuildTreeAux B tx T fuel fid ind l v = buildTreeAux B tx fuel fid ind l v := by
  have hval : ∀ fid, valueStrOf T fid = "" := by
    intro fid
    simp [valueStrOf, H6 fid]
  intro fuel
  induction fuel with
  | zero => intro fid ind l v; rfl
  | succ n ih =>
    intro fid ind l v
    by_cases hmem : fid ∈ v
    · rw [tp_circ B tx T n fid ind l v hmem, btA_circ B tx n fid ind l v hmem]
    cases hl : B.fields.lookup fid with
    | none => rw [tp_unknown B tx T n fid ind l v hmem hl, btA_unknown B tx n fid ind l v hmem hl]
    | some field =>
      by_cases haggT : specType (B.function_specs.lookup field.func) = some "aggregation" ∧
        get_taxpayer_aggregated_items tx T.ssn (B.function_specs.lookup field.func) ≠ []
      · have haggG : specType (B.function_specs.lookup field.func) = some "aggregation" ∧
            get_aggregated_items tx (B.function_specs.lookup field.func) ≠ [] :=
          ⟨haggT.1, fun he => haggT.2 ((H1 _).mpr he)⟩
        rw [tp_agg_leaf B tx T n fid ind l v field hmem hl haggT.1 haggT.2,
          btA_agg_leaf B tx n fid ind l v field hmem hl haggG.1 haggG.2,
          hval, H2 _ _ haggT.2]
      · have haggG' : ¬(specType (B.function_specs.lookup field.func) = some "aggregation" ∧
            get_aggregated_items tx (B.function_specs.lookup field.func) ≠ []) := by
          intro hc
          exact haggT ⟨hc.1, fun he => hc.2 ((H1 _).mp he)⟩
        rw [tp_general B tx T n fid ind l v field hmem hl haggT,
          btA_general B tx n fid ind l v field hmem hl haggG',
          H5 field.func (nextIndentOf ind l),
          buildDeps_congr (fun d l' v' => ih d (nextIndentOf ind l) l' v')
            field.dependencies _ (fid :: v)]
        cases hD : buildDeps (fun d l' v' => buildTreeAux B tx n d (nextIndentOf ind l) l' v')
            field.dependencies
            (get_additional_function_content B tx field.func (nextIndentOf ind l)).isSome
            (fid :: v) with
        | none => rfl
        | some r =>
          simp only [Option.map_some']
          rw [hval]
          by_cases hlkT : specType (B.function_specs.lookup field.func) = some "lookup" ∧
            get_taxpayer_lookup_results tx B.year T (B.function_specs.lookup field.func) ≠ []
          · have hlkG : specType (B.function_specs.lookup field.func) = some "lookup" ∧
                get_lookup_results tx B.year (B.function_specs.lookup field.func) ≠ [] :=
              ⟨hlkT.1, fun he => hlkT.2 ((H3 _).mpr he)⟩
            rw [if_pos hlkT, if_pos hlkG, H4 _ _ hlkT.2]
          · have hlkG' : ¬(specType (B.function_specs.lookup field.func) = some "lookup" ∧
                get_lookup_results tx B.year (B.function_specs.lookup field.func) ≠ []) := by
              intro hc
              exact hlkT ⟨hc.1, fun he => hc.2 ((H3 _).mp he)⟩
            rw [if_neg hlkT, if_neg hlkG']

theorem joinLines_append (a b : List String) :
    joinLines (a ++ b) = joinLines a ++ joinLines b := by
  induction a with
  | nil => simp [joinLines]
  | cons x xs ih =>
    rw [List.cons_append, joinLines, joinLines, ih, String.append_assoc,
      String.append_assoc, ← String.append_assoc]

/-! ## Claim theorems -/

/-- C1: for every loaded fields mapping (cyclic dependency lists included) and
every starting field id, the tree renderers terminate — any fuel above the
number of unvisited mapping keys suffices, and in particular the fuel the
top-level entry points pass always does; and a call on a field id already in
the visited set emits exactly the single circular-reference line at the
current indentation and returns the visited set unchanged (no recursion into
the field). Both `PurelyGenericTreeBuilder.build_tree` and
`build_generic_year_tree` are covered. -/
theorem claim1_tree_renderer_terminates_and_handles_cycles :
    (∀ (B : Builder) (tx : Tx) (fuel : Nat) (fid ind : String) (l : Bool) (v : List String),
      unvisitedKeys (B.fields.map Prod.fst) v < fuel →
      (buildTreeAux B tx fuel fid ind l v).isSome) ∧
    (∀ (B : Builder) (tx : Tx) (fid : String),
      (buildTreeAux B tx (B.fields.length + 1) fid "" true []).isSome) ∧
    (∀ (B : Builder) (tx : Tx) (fuel : Nat) (fid ind : String) (l : Bool) (v : List String),
      fid ∈ v →
      buildTreeAux B tx (fuel + 1) fid ind l v =
        some (ind ++ "└── (circular reference)\n", v)) ∧
    (∀ (F : List (String × YearField)) (tx : Tx) (year : Int) (fuel : Nat)
        (rid ind : String) (l : Bool) (v : List String),
      unvisitedKeys (F.map Prod.fst) v < fuel →
      (yearTreeAux F tx year fuel rid ind l v).isSome) ∧
    (∀ (F : List (String × YearField)) (tx : Tx) (year : Int) (fuel : Nat)
        (rid ind : String) (l : Bool) (v : List String),
      rid ∈ v →
      yearTreeAux F tx year (fuel + 1) rid ind l v =
        some (ind ++ "└── (circular reference)\n", v)) := by
  refine ⟨?_, ?_, ?_, ?_, ?_⟩
  · intro B tx fuel fid ind l v h
    obtain ⟨s, v', heq, -⟩ := btA_total B tx fuel fid ind l v h
    rw [heq]
    rfl
  · intro B tx fid
    have hb : unvisitedKeys (B.fields.map Prod.fst) [] < B.fields.length + 1 := by
      have h1 : unvisitedKeys (B.fields.map Prod.fst) [] ≤ (B.fields.map Prod.fst).length :=
        List.countP_le_length _
      have h2 : (B.fields.map Prod.fst).length = B.fields.length := List.length_map _ _
      omega
    obtain ⟨s, v', heq, -⟩ := btA_total B tx (B.fields.length + 1) fid "" true [] hb
    rw [heq]
    rfl
  · exact fun B tx fuel fid ind l v h => btA_circ B tx fuel fid ind l v h
  · intro F tx year fuel rid ind l v h
    obtain ⟨s, v', heq, -⟩ := yt_total F tx year fuel rid ind l v h
    rw [heq]
    rfl
  · exact fun F tx year fuel rid ind l v h => yt_circ F tx year fuel rid ind l v h

/-- Witness for C1 at a cyclic two-field mapping. -/
theorem claim1_witness :
    ((buildTreeAux cyclicBuilder txEmpty 3 "A" "" true []).isSome ∧
      (yearTreeAux cyclicYearFields txEmpty 2024 3 "A" "" true []).isSome) ∧
    (buildTreeAux cyclicBuilder txEmpty 1 "B" "    " true ["B"] =
      some ("    └── (circular reference)\n", ["B"])) ∧
    (yearTreeAux cyclicYearFields txEmpty 2024 1 "B" "    " true ["B"] =
      some ("    └── (circular reference)\n", ["B"])) := by
  refine ⟨⟨?_, ?_⟩, ?_, ?_⟩
  · exact claim1_tree_renderer_terminates_and_handles_cycles.1 cyclicBuilder txEmpty 3
      "A" "" true [] (by decide)
  · exact claim1_tree_renderer_terminates_and_handles_cycles.2.2.2.1 cyclicYearFields txEmpty
      2024 3 "A" "" true [] (by decide)
  · exact claim1_tree_renderer_terminates_and_handles_cycles.2.2.1 cyclicBuilder txEmpty 0
      "B" "    " true ["B"] (by decide)
  · exact claim1_tree_renderer_terminates_and_handles_cycles.2.2.2.2 cyclicYearFields txEmpty
      2024 0 "B" "    " true ["B"] (by decide)

/-- C2 counterexample: with identical loaded mappings (`aggBuilder`), the
output of `build_tree` still differs between two transactions whose
income-type query returns different rows — so the output is not a function of
the loaded mappings alone, and the tree walk does consult the database. -/
theorem claim2_counterexample :
    buildTree aggBuilder (incomeTx ["Interest Income"]) "1040-line-9" ≠
      buildTree aggBuilder (incomeTx ["Wages"]) "1040-line-9" := by
  decide

/-- C2 (amended): the tree renderers are deterministic in the loaded mappings
plus the rows returned by the queries issued during the walk: two
transactions agreeing on the income-type rows and on the year-indexed
deduction, itemized, bracket, limit and display rows (at the builder's year)
produce identical output, for both `build_tree` and
`build_generic_year_tree`. -/
theorem claim2_amended_walk_query_dependence :
    (∀ (B : Builder) (tx tx' : Tx),
      tx.incomeTypeNames = tx'.incomeTypeNames →
      tx.stdDeductionRows B.year = tx'.stdDeductionRows B.year →
      tx.taxBracketRows B.year = tx'.taxBracketRows B.year →
      ∀ fuel fid ind l v,
        buildTreeAux B tx fuel fid ind l v = buildTreeAux B tx' fuel fid ind l v) ∧
    (∀ (F : List (String × YearField)) (tx tx' : Tx) (year : Int),
      tx.incomeTypes = tx'.incomeTypes →
      tx.stdDeductionsByStatus year = tx'.stdDeductionsByStatus year →
      tx.itemizedDisplays year = tx'.itemizedDisplays year →
      tx.deductionLimit = tx'.deductionLimit →
      tx.taxBracketsByStatus year = tx'.taxBracketsByStatus year →
      tx.filingStatusDisplay = tx'.filingStatusDisplay →
      ∀ fuel rid ind l v,
        yearTreeAux F tx year fuel rid ind l v = yearTreeAux F tx' year fuel rid ind l v) := by
  constructor
  · exact fun B tx tx' h1 h2 h3 => btA_tx_congr B tx tx' h1 h2 h3
  · exact fun F tx tx' year k1 k2 k3 k4 k5 k6 => yt_tx_congr F tx tx' year k1 k2 k3 k4 k5 k6

/-- Witness for the amended C2: two observably different transactions that
agree on everything the walk reads at the builder's year give equal output. -/
theorem claim2_witness :
    (buildTreeAux aggBuilder (incomeTx ["Interest Income"]) 2 "1040-line-9" "" true [] =
      buildTreeAux aggBuilder incomeTx2023 2 "1040-line-9" "" true []) ∧
    (incomeTx ["Interest Income"]).stdDeductionRows 2023 ≠ incomeTx2023.stdDeductionRows 2023 := by
  constructor
  · exact claim2_amended_walk_query_dependence.1 aggBuilder (incomeTx ["Interest Income"])
      incomeTx2023 (by decide) (by decide) (by decide) 2 "1040-line-9" "" true []
  · intro h
    have h1 : (incomeTx ["Interest Income"]).stdDeductionRows 2023 = [] := by decide
    have h2 : incomeTx2023.stdDeductionRows 2023 = [("Z", (1 : Rat))] := by decide
    rw [h1, h2] at h
    exact List.noConfusion h

/-- C7: `TaxSystemQuerier.get_field_dependencies` is a pure placeholder: for
every field id it issues no query and returns `None` instead of the
documented dependency dictionary. -/
theorem claim7_placeholder_returns_none :
    ∀ field_id : String,
      get_field_dependencies field_id = (none, []) ∧
      ∀ d : FieldDeps, (get_field_dependencies field_id).1 ≠ some d := by
  intro field_id
  exact ⟨rfl, fun d h => Option.noConfusion h⟩

/-- C10 counterexample: an absent field id does not always render as the
empty string. With the root listing the absent id `X` twice, the first
occurrence returns empty but poisons the visited set, so the call on the
second occurrence (here shown directly with `X` already visited) returns the
circular-reference line, and the whole tree shows a spurious circular
reference that an absent-field-renders-nothing reading forbids. -/
theorem claim10_counterexample :
    (buildTreeAux unknownDepBuilder txEmpty 1 "X" "" true ["X"] =
      some ("└── (circular reference)\n", ["X"])) ∧
    ("└── (circular reference)\n" ≠ "") ∧
    (buildTree unknownDepBuilder txEmpty "R" =
      "R [R]\n└── f()\n    │\n    └── (circular reference)\n") := by
  refine ⟨by decide, by decide, by decide⟩

/-- C10 (amended): a field id absent from the loaded mapping renders as the
empty string provided it is not already in the visited set — and the call
still marks it visited, which is what makes a later occurrence print the
circular-reference line instead. Both tree builders behave alike. -/
theorem claim10_amended_unknown_field :
    (∀ (B : Builder) (tx : Tx) (fuel : Nat) (fid ind : String) (l : Bool) (v : List String),
      fid ∉ v → B.fields.lookup fid = none →
      buildTreeAux B tx (fuel + 1) fid ind l v = some ("", fid :: v)) ∧
    (∀ (F : List (String × YearField)) (tx : Tx) (year : Int) (fuel : Nat)
        (rid ind : String) (l : Bool) (v : List String),
      rid ∉ v → F.lookup rid = none →
      yearTreeAux F tx year (fuel + 1) rid ind l v = some ("", rid :: v)) := by
  constructor
  · exact fun B tx fuel fid ind l v h1 h2 => btA_unknown B tx fuel fid ind l v h1 h2
  · exact fun F tx year fuel rid ind l v h1 h2 => yt_unknown F tx year fuel rid ind l v h1 h2

/-- Witness for the amended C10. -/
theorem claim10_witness :
    (buildTreeAux plainBuilder txEmpty 1 "Z" "" true [] = some ("", ["Z"])) ∧
    (yearTreeAux cyclicYearFields txEmpty 2024 1 "Z" "" true [] = some ("", ["Z"])) := by
  constructor
  · exact claim10_amended_unknown_field.1 plainBuilder txEmpty 0 "Z" "" true []
      (by decide) (by decide)
  · exact claim10_amended_unknown_field.2 cyclicYearFields txEmpty 2024 0 "Z" "" true []
      (by decide) (by decide)

set_option maxRecDepth 8192 in
/-- C8: the visited set is threaded through sibling recursive calls and only
ever grows (never an entry removed), a call on an already-visited id returns
the circular-reference line without expanding the field — and consequently in
the acyclic diamond `A → B, C`; `B, C → D` (acyclicity certified by a strictly
decreasing rank on every dependency edge) the field `D` is expanded in full
under `B`, the first path, and printed as `(circular reference)` under `C`,
the later path. -/
theorem claim8_visited_shared_across_paths :
    (∀ (B : Builder) (tx : Tx) (fuel : Nat) (fid ind : String) (l : Bool) (v : List String),
      fid ∈ v →
      buildTreeAux B tx (fuel + 1) fid ind l v =
        some (ind ++ "└── (circular reference)\n", v)) ∧
    (∀ (B : Builder) (tx : Tx) (fuel : Nat) (fid ind : String) (l : Bool)
        (v : List String) (s : String) (v' : List String),
      buildTreeAux B tx fuel fid ind l v = some (s, v') → v ⊆ v') ∧
    ((∀ p ∈ diamondBuilder.fields, ∀ d ∈ p.2.dependencies, diamondRank d < diamondRank p.1) ∧
      buildTree diamondBuilder txEmpty "A" =
        "A [A]\n└── f()\n    │\n    ├── B [B]\n    │   └── g()\n    │       │\n    │       └── D [D]\n    │           └── k()\n    └── C [C]\n        └── h()\n            │\n            └── (circular reference)\n") := by
  refine ⟨?_, ?_, ?_, ?_⟩
  · exact fun B tx fuel fid ind l v h => btA_circ B tx fuel fid ind l v h
  · exact fun B tx fuel fid ind l v s v' h => btA_mono B tx fuel fid ind l v s v' h
  · decide
  · decide

/-- Witness for C8: a direct circular-reference call inside the diamond, and
an instance of visited-set growth extracted from an evaluated call. -/
theorem claim8_witness :
    (buildTreeAux diamondBuilder txEmpty 1 "D" "    " true ["D"] =
      some ("    └── (circular reference)\n", ["D"])) ∧
    (["B"] ⊆ ["D", "B"]) := by
  constructor
  · exact claim8_visited_shared_across_paths.1 diamondBuilder txEmpty 0 "D" "    " true ["D"]
      (by decide)
  · exact claim8_visited_shared_across_paths.2.1 diamondBuilder txEmpty 1 "D" "x" false ["B"]
      "x├── D [D]\nx│   └── k()\n" ["D", "B"] (by decide)

theorem display_items_checked_some {items : List String} {ni : String}
    {spec : Option FuncSpec} {r : String}
    (h : display_items_checked items ni spec = some r) :
    r = display_items items ni spec := by
  cases spec with
  | none =>
    simp only [display_items_checked] at h
    exact (Option.some.inj h).symm
  | some sp =>
    cases hp : sp.display_pattern with
    | none =>
      simp only [display_items_checked, hp] at h
      exact Option.noConfusion h
    | some p =>
      simp only [display_items_checked, hp] at h
      by_cases hc : formatFragmentOk p ["name"] = true
      · rw [if_pos hc] at h
        exact (Option.some.inj h).symm
      · rw [if_neg hc] at h
        exact Option.noConfusion h

theorem display_lookup_results_checked_some {results : List (String × Rat)} {ni : String}
    {spec : Option FuncSpec} {r : String}
    (h : display_lookup_results_checked results ni spec = some r) :
    r = display_lookup_results results ni spec := by
  cases spec with
  | none =>
    simp only [display_lookup_results_checked] at h
    by_cases hr : results.all (fun row => bracesFree row.1 && pyFloatStrOk row.2) = true
    · rw [if_pos hr] at h
      exact (Option.some.inj h).symm
    · rw [if_neg hr] at h
      exact Option.noConfusion h
  | some sp =>
    cases hp : sp.display_pattern with
    | none =>
      simp only [display_lookup_results_checked, hp] at h
      exact Option.noConfusion h
    | some p =>
      simp only [display_lookup_results_checked, hp] at h
      by_cases hc : (formatFragmentOk p ["status", "amount"] &&
          results.all (fun row => bracesFree row.1 && pyFloatStrOk row.2)) = true
      · rw [if_pos hc] at h
        exact (Option.some.inj h).symm
      · rw [if_neg hc] at h
        exact Option.noConfusion h

theorem display_taxpayer_items_checked_some {items : List (String × Rat)} {ni : String}
    {r : String}
    (h : display_taxpayer_items_checked items ni = some r) :
    r = display_taxpayer_items items ni := by
  simp only [display_taxpayer_items_checked] at h
  by_cases hc : items.all (fun row => !(row.2.den == 2)) = true
  · rw [if_pos hc] at h
    exact (Option.some.inj h).symm
  · rw [if_neg hc] at h
    exact Option.noConfusion h

/-- C5 counterexample: the claim fails as stated. This loaded mapping has a
field whose calculation function has metadata type `aggregation` and a
non-empty item list, yet `build_tree` does not render the items and return:
the spec row stores no display pattern, so Python reaches
`display_pattern.format(**item)` with `display_pattern = None` and raises
`AttributeError` (`load_metadata` always stores the key, and `dict.get`
returns the stored `None`, not the `\x7bname\x7d` default). The checked
display step makes that failure explicit as `none`. -/
theorem claim5_counterexample :
    (specType (crashBuilder.function_specs.lookup "calculate_total_income") =
      some "aggregation") ∧
    (get_aggregated_items (incomeTx ["W-2 Wages"])
      (crashBuilder.function_specs.lookup "calculate_total_income") ≠ []) ∧
    (display_items_checked
      (get_aggregated_items (incomeTx ["W-2 Wages"])
        (crashBuilder.function_specs.lookup "calculate_total_income"))
      (nextIndentOf "" true)
      (crashBuilder.function_specs.lookup "calculate_total_income") = none) := by
  refine ⟨by decide, by decide, by decide⟩

/-- C5 (amended): provided the display step succeeds — the stored pattern is
present and lies in the plain replacement fragment, and the rendered rows lie
in the exact envelope of the model (otherwise Python raises or prints
outside the modelled fragment, as the counterexample shows) — a field whose
calculation function has metadata type `aggregation` and a non-empty item
list renders the aggregated items and returns without processing its
dependencies (only the field itself joins the visited set), while a field of
type `lookup` renders its lookup rows when non-empty (and nothing when
empty) and still processes its dependency list afterwards; the taxpayer
builder treats its aggregations the same way. -/
theorem claim5_amended_leaf_expansion :
    (∀ (B : Builder) (tx : Tx) (fuel : Nat) (fid ind : String) (l : Bool)
        (v : List String) (field : Field) (rendered : String),
      fid ∉ v → B.fields.lookup fid = some field →
      specType (B.function_specs.lookup field.func) = some "aggregation" →
      get_aggregated_items tx (B.function_specs.lookup field.func) ≠ [] →
      display_items_checked (get_aggregated_items tx (B.function_specs.lookup field.func))
        (nextIndentOf ind l) (B.function_specs.lookup field.func) = some rendered →
      buildTreeAux B tx (fuel + 1) fid ind l v =
        some (nodeHeaderStr field fid ind l "" ++ rendered, fid :: v)) ∧
    (∀ (B : Builder) (tx : Tx) (fuel : Nat) (fid ind : String) (l : Bool)
        (v : List String) (field : Field) (renderedL : String),
      fid ∉ v → B.fields.lookup fid = some field →
      specType (B.function_specs.lookup field.func) = some "lookup" →
      get_lookup_results tx B.year (B.function_specs.lookup field.func) ≠ [] →
      display_lookup_results_checked
        (get_lookup_results tx B.year (B.function_specs.lookup field.func))
        (nextIndentOf ind l) (B.function_specs.lookup field.func) = some renderedL →
      buildTreeAux B tx (fuel + 1) fid ind l v =
        (buildDeps (fun d l2 w => buildTreeAux B tx fuel d (nextIndentOf ind l) l2 w)
            field.dependencies
            (get_additional_function_content B tx field.func (nextIndentOf ind l)).isSome
            (fid :: v)).map
          (fun r =>
            (nodeHeaderStr field fid ind l "" ++ renderedL ++
              (if field.dependencies.isEmpty then "" else nextIndentOf ind l ++ "│\n") ++
              r.1 ++
              (get_additional_function_content B tx field.func (nextIndentOf ind l)).getD "",
            r.2))) ∧
    (∀ (B : Builder) (tx : Tx) (fuel : Nat) (fid ind : String) (l : Bool)
        (v : List String) (field : Field),
      fid ∉ v → B.fields.lookup fid = some field →
      specType (B.function_specs.lookup field.func) = some "lookup" →
      get_lookup_results tx B.year (B.function_specs.lookup field.func) = [] →
      buildTreeAux B tx (fuel + 1) fid ind l v =
        (buildDeps (fun d l2 w => buildTreeAux B tx fuel d (nextIndentOf ind l) l2 w)
            field.dependencies
            (get_additional_function_content B tx field.func (nextIndentOf ind l)).isSome
            (fid :: v)).map
          (fun r =>
            (nodeHeaderStr field fid ind l "" ++
              (if field.dependencies.isEmpty then "" else nextIndentOf ind l ++ "│\n") ++
              r.1 ++
              (get_additional_function_content B tx field.func (nextIndentOf ind l)).getD "",
            r.2))) ∧
    (∀ (B : Builder) (tx : Tx) (T : TaxpayerState) (fuel : Nat) (fid ind : String)
        (l : Bool) (v : List String) (field : Field) (renderedT : String),
      fid ∉ v → B.fields.lookup fid = some field →
      specType (B.function_specs.lookup field.func) = some "aggregation" →
      get_taxpayer_aggregated_items tx T.ssn (B.function_specs.lookup field.func) ≠ [] →
      display_taxpayer_items_checked
        (get_taxpayer_aggregated_items tx T.ssn (B.function_specs.lookup field.func))
        (nextIndentOf ind l) = some renderedT →
      valueStrOk T fid = true →
      taxpayerBuildTreeAux B tx T (fuel + 1) fid ind l v =
        some (nodeHeaderStr field fid ind l (valueStrOf T fid) ++ renderedT,
          fid :: v)) := by
  refine ⟨?_, ?_, ?_, ?_⟩
  · intro B tx fuel fid ind l v field rendered h1 h2 h3 h4 h5
    rw [btA_agg_leaf B tx fuel fid ind l v field h1 h2 h3 h4,
      display_items_checked_some h5]
  · intro B tx fuel fid ind l v field renderedL h1 h2 h3 h4 h5
    have hnagg : ¬(specType (B.function_specs.lookup field.func) = some "aggregation" ∧
        get_aggregated_items tx (B.function_specs.lookup field.func) ≠ []) := by
      intro hc
      exact absurd (Option.some.inj (h3.symm.trans hc.1)) (by decide)
    rw [btA_general B tx fuel fid ind l v field h1 h2 hnagg,
      if_pos (And.intro h3 h4), display_lookup_results_checked_some h5]
  · intro B tx fuel fid ind l v field h1 h2 h3 h4
    have hnagg : ¬(specType (B.function_specs.lookup field.func) = some "aggregation" ∧
        get_aggregated_items tx (B.function_specs.lookup field.func) ≠ []) := by
      intro hc
      exact absurd (Option.some.inj (h3.symm.trans hc.1)) (by decide)
    rw [btA_general B tx fuel fid ind l v field h1 h2 hnagg,
      if_neg (fun hc => hc.2 h4)]
    congr 1
    funext r
    rw [String.append_empty]
  · intro B tx T fuel fid ind l v field renderedT h1 h2 h3 h4 h5 h6
    rw [tp_agg_leaf B tx T fuel fid ind l v field h1 h2 h3 h4,
      display_taxpayer_items_checked_some h5]

/-- Witness for the amended C5: the four conjuncts evaluated at concrete
builders whose display steps succeed — the aggregation output is a leaf (no
dependency content, visited gains only the field), the lookup output renders
its row (or nothing, when the rows are empty) and then the dependency
subtree. -/
theorem claim5_witness :
    (buildTreeAux aggBuilder (incomeTx ["Interest Income", "W-2 Wages"]) 1
        "1040-line-9" "" true [] =
      some ("Total Income [line-9]\n└── calculate_total_income()\n    │\n    ├── Interest Income\n    │\n    └── W-2 Wages\n",
        ["1040-line-9"])) ∧
    (buildTreeAux lookupBuilder lookupTx 2 "L" "" true [] =
      some ("Standard Deduction [L]\n└── get_standard_deduction()\n    │\n    └── Single: $14600.0\n    │\n    └── Dep [d]\n        └── g()\n",
        ["d", "L"])) ∧
    (buildTreeAux lookupBuilder txEmpty 2 "L" "" true [] =
      some ("Standard Deduction [L]\n└── get_standard_deduction()\n    │\n    └── Dep [d]\n        └── g()\n",
        ["d", "L"])) ∧
    (taxpayerBuildTreeAux aggBuilder taxpayerIncomeTx incomeTaxpayer 1
        "1040-line-9" "" true [] =
      some ("Total Income [line-9]\n└── calculate_total_income()\n    │\n    └── W-2 Wages = $65,000\n",
        ["1040-line-9"])) := by
  refine ⟨?_, ?_, ?_, ?_⟩
  · exact (claim5_amended_leaf_expansion.1 aggBuilder
      (incomeTx ["Interest Income", "W-2 Wages"]) 0 "1040-line-9" "" true []
      ⟨"Total Income", "calculate_total_income", []⟩
      "    │\n    ├── Interest Income\n    │\n    └── W-2 Wages\n"
      (by decide) (by decide) (by decide) (by decide) (by decide)).trans (by decide)
  · exact (claim5_amended_leaf_expansion.2.1 lookupBuilder lookupTx 1 "L" "" true []
      ⟨"Standard Deduction", "get_standard_deduction", ["d"]⟩
      "    │\n    └── Single: $14600.0\n"
      (by decide) (by decide) (by decide) (by decide) (by decide)).trans (by decide)
  · exact (claim5_amended_leaf_expansion.2.2.1 lookupBuilder txEmpty 1 "L" "" true []
      ⟨"Standard Deduction", "get_standard_deduction", ["d"]⟩
      (by decide) (by decide) (by decide) (by decide)).trans (by decide)
  · exact (claim5_amended_leaf_expansion.2.2.2 aggBuilder taxpayerIncomeTx incomeTaxpayer 0
      "1040-line-9" "" true [] ⟨"Total Income", "calculate_total_income", []⟩
      "    │\n    └── W-2 Wages = $65,000\n"
      (by decide) (by decide) (by decide) (by decide) (by decide) (by decide)).trans (by decide)

/-- C3: the tree-printing routine is single-pass and depth-first. The
instrumented builder (whose ghost trace lists the expanded fields in emission
order) erases to `build_tree`; its trace is duplicate-free and disjoint from
the incoming visited set, so no field's node is emitted twice in a call; and
an expanding call's output is exactly its own node lines followed by the
dependency chain, in which each dependency's complete subtree is a contiguous
factor appearing in dependency-list order (`DepsChain`), so a field's line
precedes every line of the fields it depends on. -/
theorem claim3_single_pass_depth_first :
    (∀ (B : Builder) (tx : Tx) (fuel : Nat) (fid ind : String) (l : Bool) (v : List String),
      (buildTreeAuxT B tx fuel fid ind l v).map (fun r => (r.1, r.2.1)) =
        buildTreeAux B tx fuel fid ind l v) ∧
    (∀ (B : Builder) (tx : Tx) (fuel : Nat) (fid ind : String) (l : Bool)
        (v : List String) (s : String) (v' tr : List String),
      buildTreeAuxT B tx fuel fid ind l v = some (s, v', tr) →
      tr.Nodup ∧ ∀ x ∈ tr, x ∉ v) ∧
    (∀ (B : Builder) (tx : Tx) (fuel : Nat) (fid ind : String) (l : Bool)
        (v : List String) (field : Field) (s : String) (v' : List String),
      fid ∉ v → B.fields.lookup fid = some field →
      ¬(specType (B.function_specs.lookup field.func) = some "aggregation" ∧
        get_aggregated_items tx (B.function_specs.lookup field.func) ≠ []) →
      buildTreeAux B tx (fuel + 1) fid ind l v = some (s, v') →
      ∃ depsStr,
        DepsChain (fun d l' w => buildTreeAux B tx fuel d (nextIndentOf ind l) l' w)
          field.dependencies
          (get_additional_function_content B tx field.func (nextIndentOf ind l)).isSome
          (fid :: v) depsStr v' ∧
        s = nodeHeaderStr field fid ind l "" ++
          (if specType (B.function_specs.lookup field.func) = some "lookup" ∧
              get_lookup_results tx B.year (B.function_specs.lookup field.func) ≠ [] then
            display_lookup_results
              (get_lookup_results tx B.year (B.function_specs.lookup field.func))
              (nextIndentOf ind l) (B.function_specs.lookup field.func)
          else "") ++
          (if field.dependencies.isEmpty then "" else nextIndentOf ind l ++ "│\n") ++
          depsStr ++
          (get_additional_function_content B tx field.func (nextIndentOf ind l)).getD "") := by
  refine ⟨?_, ?_, ?_⟩
  · exact fun B tx fuel fid ind l v => btT_proj B tx fuel fid ind l v
  · intro B tx fuel fid ind l v s v' tr h
    obtain ⟨hn, hf, -, -⟩ := btT_trace B tx fuel fid ind l v s v' tr h
    exact ⟨hn, hf⟩
  · intro B tx fuel fid ind l v field s v' h1 h2 h3 h
    rw [btA_general B tx fuel fid ind l v field h1 h2 h3] at h
    cases hD : buildDeps (fun d l' w => buildTreeAux B tx fuel d (nextIndentOf ind l) l' w)
        field.dependencies
        (get_additional_function_content B tx field.func (nextIndentOf ind l)).isSome
        (fid :: v) with
    | none => rw [hD] at h; exact Option.noConfusion h
    | some r =>
      obtain ⟨s0, v0⟩ := r
      rw [hD] at h
      simp only [Option.map_some', Option.some.injEq, Prod.mk.injEq] at h
      obtain ⟨hs, hv⟩ := h
      exact ⟨s0, hv ▸ buildDeps_chain field.dependencies _ (fid :: v) s0 v0 hD, hs.symm⟩

/-- Witness for C3 at the lookup builder: the expanded-field trace of a
concrete run is duplicate-free, and the concrete output decomposes as node
lines followed by the dependency chain. -/
theorem claim3_witness :
    ((["L", "d"] : List String).Nodup ∧ ∀ x ∈ (["L", "d"] : List String), x ∉ ([] : List String)) ∧
    (∃ depsStr,
      DepsChain (fun d l' w => buildTreeAux lookupBuilder lookupTx 1 d (nextIndentOf "" true) l' w)
        ["d"]
        (get_additional_function_content lookupBuilder lookupTx "get_standard_deduction"
          (nextIndentOf "" true)).isSome
        ["L"] depsStr ["d", "L"] ∧
      "Standard Deduction [L]\n└── get_standard_deduction()\n    │\n    └── Single: $14600.0\n    │\n    └── Dep [d]\n        └── g()\n" =
        nodeHeaderStr ⟨"Standard Deduction", "get_standard_deduction", ["d"]⟩ "L" "" true "" ++
        (if specType (lookupBuilder.function_specs.lookup "get_standard_deduction") =
              some "lookup" ∧
            get_lookup_results lookupTx lookupBuilder.year
              (lookupBuilder.function_specs.lookup "get_standard_deduction") ≠ [] then
          display_lookup_results
            (get_lookup_results lookupTx lookupBuilder.year
              (lookupBuilder.function_specs.lookup "get_standard_deduction"))
            (nextIndentOf "" true)
            (lookupBuilder.function_specs.lookup "get_standard_deduction")
        else "") ++
        (if (["d"] : List String).isEmpty then "" else nextIndentOf "" true ++ "│\n") ++
        depsStr ++
        (get_additional_function_content lookupBuilder lookupTx "get_standard_deduction"
          (nextIndentOf "" true)).getD "") := by
  constructor
  · exact claim3_single_pass_depth_first.2.1 lookupBuilder lookupTx 2 "L" "" true []
      "Standard Deduction [L]\n└── get_standard_deduction()\n    │\n    └── Single: $14600.0\n    │\n    └── Dep [d]\n        └── g()\n"
      ["d", "L"] ["L", "d"] (by decide)
  · exact claim3_single_pass_depth_first.2.2 lookupBuilder lookupTx 1 "L" "" true []
      ⟨"Standard Deduction", "get_standard_deduction", ["d"]⟩
      "Standard Deduction [L]\n└── get_standard_deduction()\n    │\n    └── Single: $14600.0\n    │\n    └── Dep [d]\n        └── g()\n"
      ["d", "L"] (by decide) (by decide) (by decide) (by decide)

/-- C6 counterexample: query texts sent to the database change when only the
user-supplied SSN or tax year changes — the taxpayer-income query, the
year-parameterised standard-deduction query, the audit-trail root query and
the per-step children query all interpolate runtime values into the string. -/
theorem claim6_counterexample :
    (get_taxpayer_income_query "123-45-6789" ≠ get_taxpayer_income_query "987-65-4321") ∧
    (get_lookup_results_query 2023 ≠ get_lookup_results_query 2024) ∧
    (root_query "123-45-6789" 2024 ≠ root_query "987-65-4321" 2024) ∧
    (children_query "calc-001" ≠ children_query "calc-002") := by
  refine ⟨by decide, by decide, by decide, by decide⟩

theorem string_data_inj {a b : String} (h : a.data = b.data) : a = b := by
  cases a
  cases b
  exact congrArg String.mk h

set_option maxRecDepth 16384 in
/-- C6 (amended): the metadata queries are fixed literals, but the
taxpayer-income, standard-deduction and audit-trail query strings embed the
runtime SSN or year, and do so faithfully — the full query text determines
the interpolated value. -/
theorem claim6_amended_query_texts :
    (∀ s1 s2 : String, get_taxpayer_income_query s1 = get_taxpayer_income_query s2 → s1 = s2) ∧
    (∀ y1 y2 : Int, get_lookup_results_query y1 = get_lookup_results_query y2 →
      toString y1 = toString y2) ∧
    (∀ (s1 s2 : String) (y : Int), root_query s1 y = root_query s2 y → s1 = s2) := by
  refine ⟨?_, ?_, ?_⟩
  · intro s1 s2 h
    have hd := congrArg String.data h
    simp only [get_taxpayer_income_query, String.data_append] at hd
    have h1 := List.append_cancel_right hd
    have h2 := List.append_cancel_left h1
    exact string_data_inj h2
  · intro y1 y2 h
    have hd := congrArg String.data h
    simp only [get_lookup_results_query, String.data_append] at hd
    have h1 := List.append_cancel_right hd
    have h2 := List.append_cancel_left h1
    exact string_data_inj h2
  · intro s1 s2 y h
    have hd := congrArg String.data h
    simp only [root_query, String.data_append] at hd
    have h1 := List.append_cancel_right hd
    have h2 := List.append_cancel_right h1
    have h3 := List.append_cancel_right h2
    have h4 := List.append_cancel_left h3
    exact string_data_inj h4

/-- Witness for the amended C6. -/
theorem claim6_witness : ("123-45-6789" : String) = "123-45-6789" :=
  claim6_amended_query_texts.1 "123-45-6789" "123-45-6789" rfl

/-- C9: `CalculationNode.to_console_tree` keeps the ASCII-tree prefix
invariant. Its output is exactly the newline-joined `consoleLines`, whose
definition is the claimed invariant verbatim — every node contributes exactly
one line (the line count equals the node count), the last child gets the
`└── ` connector and earlier children `├── `, and each child's subtree lines
extend the parent prefix with four blanks after a last sibling and with a bar
otherwise. -/
theorem claim9_console_tree_invariant :
    ∀ (n : CNode) (pref : String) (isLast : Bool),
      toConsoleTree n pref isLast = joinLines (consoleLines n pref isLast) ∧
      (consoleLines n pref isLast).length = sizeCNode n :=
  @CNode.rec
    (fun n => ∀ (pref : String) (isLast : Bool),
      toConsoleTree n pref isLast = joinLines (consoleLines n pref isLast) ∧
      (consoleLines n pref isLast).length = sizeCNode n)
    (fun fr => ∀ pref : String,
      toConsoleForest fr pref = joinLines (consoleLinesForest fr pref) ∧
      (consoleLinesForest fr pref).length = sizeCForest fr)
    (fun _sid ctype value formula _note children ihf => by
      intro pref isLast
      constructor
      · have hf := (ihf (pref ++ (if isLast then "    " else "│   "))).1
        simp only [toConsoleTree, consoleLines, joinLines, hf, String.append_assoc]
      · have hf := (ihf (pref ++ (if isLast then "    " else "│   "))).2
        simp only [consoleLines, sizeCNode, List.length_cons, hf]
        omega)
    (fun pref => ⟨rfl, rfl⟩)
    (fun head tail ihn ihf => by
      intro pref
      cases tail with
      | nil =>
        have hn := ihn pref true
        have hf := ihf pref
        constructor
        · show toConsoleTree head pref true ++ toConsoleForest CForest.nil pref =
            joinLines (consoleLines head pref true ++ consoleLinesForest CForest.nil pref)
          rw [joinLines_append, hn.1, hf.1]
        · show (consoleLines head pref true ++ consoleLinesForest CForest.nil pref).length =
            sizeCNode head + sizeCForest CForest.nil
          rw [List.length_append, hn.2, hf.2]
      | cons h2 t2 =>
        have hn := ihn pref false
        have hf := ihf pref
        constructor
        · show toConsoleTree head pref false ++ toConsoleForest (CForest.cons h2 t2) pref =
            joinLines
              (consoleLines head pref false ++ consoleLinesForest (CForest.cons h2 t2) pref)
          rw [joinLines_append, hn.1, hf.1]
        · show (consoleLines head pref false ++
              consoleLinesForest (CForest.cons h2 t2) pref).length =
            sizeCNode head + sizeCForest (CForest.cons h2 t2)
          rw [List.length_append, hn.2, hf.2])

/-- C4 counterexample: with the same loaded metadata (a root whose function
has the `tax_bracket_rule` additional content and two dependencies) but no
loaded taxpayer filing, the generic tree renders the field `D2` with the
`├──` connector while the taxpayer tree renders the same field with `└──`:
no taxpayer line extends the generic field line, so the trees do not agree up
to appended value suffixes and leaf expansions. -/
theorem claim4_counterexample :
    ((linesOf (buildTree bracketBuilder txEmpty "r")).contains "    ├── D2 [d2]" = true) ∧
    ((linesOf (taxpayerBuildTree bracketBuilder txEmpty emptyTaxpayer "r")).any
        (fun line => strIsPrefixOf "    ├── D2 [d2]" line) = false) ∧
    ((linesOf (taxpayerBuildTree bracketBuilder txEmpty emptyTaxpayer "r")).contains
        "    └── D2 [d2]" = true) := by
  refine ⟨by decide, by decide, by decide⟩

/-- C4 (amended): the taxpayer builder's recursion differs from the generic
one only through four channels — the taxpayer value map (appended
` = $value` suffixes), the aggregation items, the lookup rows and the
additional bracket content. Whenever those channels carry the same
information (empty value map, item/lookup lists empty in the same cases with
equal renderings when non-empty, and equal additional content — which fails
when the taxpayer context or line-15 value is missing, as the counterexample
shows), the two builders produce identical trees for every starting field. -/
theorem claim4_amended_parallel_views (B : Builder) (tx : Tx) (T : TaxpayerState)
    (H1 : ∀ spec : Option FuncSpec,
      get_taxpayer_aggregated_items tx T.ssn spec = [] ↔ get_aggregated_items tx spec = [])
    (H2 : ∀ (spec : Option FuncSpec) (ni : String),
      get_taxpayer_aggregated_items tx T.ssn spec ≠ [] →
      display_taxpayer_items (get_taxpayer_aggregated_items tx T.ssn spec) ni =
        display_items (get_aggregated_items tx spec) ni spec)
    (H3 : ∀ spec : Option FuncSpec,
      get_taxpayer_lookup_results tx B.year T spec = [] ↔
        get_lookup_results tx B.year spec = [])
    (H4 : ∀ (spec : Option FuncSpec) (ni : String),
      get_taxpayer_lookup_results tx B.year T spec ≠ [] →
      display_taxpayer_lookup_results (get_taxpayer_lookup_results tx B.year T spec) ni =
        display_lookup_results (get_lookup_results tx B.year spec) ni spec)
    (H5 : ∀ (fname ni : String),
      get_taxpayer_additional_content B tx T fname ni =
        get_additional_function_content B tx fname ni)
    (H6 : ∀ fid, T.values.lookup fid = none) :
    (∀ fuel fid ind l v,
      taxpayerBuildTreeAux B tx T fuel fid ind l v = buildTreeAux B tx fuel fid ind l v) ∧
    (∀ fid, taxpayerBuildTree B tx T fid = buildTree B tx fid) := by
  have h := tp_generic_congr B tx T H1 H2 H3 H4 H5 H6
  refine ⟨h, ?_⟩
  intro fid
  rw [taxpayerBuildTree, buildTree, h]

/-- Witness for the amended C4: a builder with no function specs and a
taxpayer with no context and no values satisfies every channel-agreement
hypothesis, and the two builders render identical trees. -/
theorem claim4_witness :
    taxpayerBuildTree plainBuilder txEmpty emptyTaxpayer "W" =
      buildTree plainBuilder txEmpty "W" := by
  have hA : ∀ spec : Option FuncSpec,
      get_taxpayer_aggregated_items txEmpty emptyTaxpayer.ssn spec = [] := by
    intro spec
    rw [get_taxpayer_aggregated_items]
    split <;> rfl
  have hB : ∀ spec : Option FuncSpec, get_aggregated_items txEmpty spec = [] := by
    intro spec
    rw [get_aggregated_items]
    split <;> rfl
  have hC : ∀ spec : Option FuncSpec,
      get_taxpayer_lookup_results txEmpty plainBuilder.year emptyTaxpayer spec = [] := by
    intro spec
    rw [get_taxpayer_lookup_results]
    rw [if_neg]
    intro hc
    exact absurd hc.2 (by decide)
  have hD : ∀ spec : Option FuncSpec,
      get_lookup_results txEmpty plainBuilder.year spec = [] := by
    intro spec
    rw [get_lookup_results]
    split <;> rfl
  have hE : ∀ (fname ni : String),
      get_taxpayer_additional_content plainBuilder txEmpty emptyTaxpayer fname ni = none := by
    intro fname ni
    rw [get_taxpayer_additional_content, if_neg]
    intro hc
    exact absurd hc.2 (by decide)
  have hF : ∀ (fname ni : String),
      get_additional_function_content plainBuilder txEmpty fname ni = none := by
    intro fname ni
    rw [get_additional_function_content, if_neg]
    intro hc
    rw [show plainBuilder.function_specs = [] from rfl] at hc
    simp [List.lookup, specQueryPattern] at hc
  exact (claim4_amended_parallel_views plainBuilder txEmpty emptyTaxpayer
    (fun spec => by simp [hA, hB])
    (fun spec ni hne => absurd (hA spec) hne)
    (fun spec => by simp [hC, hD])
    (fun spec ni hne => absurd (hC spec) hne)
    (fun fname ni => by rw [hE, hF])
    (fun fid => rfl)).2 "W"

end TaxTree
